import Mathlib

/-!
Verification of the 2D particle simulator (Part 2, `ParticleVisualize.cpp`).

The simulation core is embedded shallowly over exact real arithmetic:

* `Vector2`, `Particle` mirror the C++ structs;
* `integrateParticle` is the per-particle body of the integration and
  wall-bounce loop of `StepSimulation`;
* `ResolveCollision` is the narrow-phase pair resolver, with the C++
  `std::rand()/RAND_MAX` stream modelled by an explicit `rng : ℕ → ℝ`
  together with a running counter (four draws per resolved pair, in the
  order the source consumes them);
* `gridBuild` is the spatial-hash broad phase (a bucket per integer cell,
  indices appended in increasing order, matching the C++ build loop);
* `scanBucket` / `scanParticle` / `StepSimulation` are the narrow-phase
  loops, with in-place mutation modelled by explicit state passing.

The C++ constants (`radius = 4`, `areaSize = 600`, `dtFixed = 1/60`) are
kept as parameters so that concrete instantiations can be stated; theorems
that need them fix or bound them explicitly.
-/

namespace ParticleSim

@[ext]
structure Vector2 where
  x : ℝ
  y : ℝ

@[ext]
structure Particle where
  position : Vector2
  velocity : Vector2

instance : Inhabited Vector2 := ⟨⟨0, 0⟩⟩

instance : Inhabited Particle := ⟨⟨⟨0, 0⟩, ⟨0, 0⟩⟩⟩

/-- One iteration of the integrate-and-wall-bounce loop of `StepSimulation`:
`position += velocity * dt`, then each axis is independently clamped to the
domain and the corresponding velocity component negated on contact. -/
noncomputable def integrateParticle (radius half dt : ℝ) (pt : Particle) : Particle :=
  let px := pt.position.x + pt.velocity.x * dt
  let py := pt.position.y + pt.velocity.y * dt
  { position :=
      { x := if px - radius < -half then -half + radius
             else if px + radius > half then half - radius else px,
        y := if py - radius < -half then -half + radius
             else if py + radius > half then half - radius else py },
    velocity :=
      { x := if px - radius < -half then -pt.velocity.x
             else if px + radius > half then -pt.velocity.x else pt.velocity.x,
        y := if py - radius < -half then -pt.velocity.y
             else if py + radius > half then -pt.velocity.y else pt.velocity.y } }

/-- The narrow-phase resolver `ResolveCollision(i, j)`.  Reads particles `i`
and `j`, substitutes the fixed nudge `(1e-3, 0)` when the squared distance is
zero, and if the (possibly nudged) squared distance is below `(2*radius)^2`
pushes the two particles apart by half the overlap each, swaps their
velocities, and adds the four random perturbation draws.  Returns the updated
particle list together with the advanced rng counter. -/
noncomputable def ResolveCollision (radius : ℝ) (rng : ℕ → ℝ) (ps : List Particle)
    (k : ℕ) (i j : ℕ) : List Particle × ℕ :=
  let pI := ps.getD i default
  let pJ := ps.getD j default
  let dx0 := pJ.position.x - pI.position.x
  let dy0 := pJ.position.y - pI.position.y
  let d20 := dx0 * dx0 + dy0 * dy0
  let minDist := 2 * radius
  let dx := if d20 = 0 then (1e-3 : ℝ) else dx0
  let dy := if d20 = 0 then 0 else dy0
  let dist2 := dx * dx + dy * dy
  if dist2 < minDist * minDist then
    let dist := Real.sqrt dist2
    let nx := dx / dist
    let ny := dy / dist
    let overlap := 0.5 * (minDist - dist)
    let p := (0.01 : ℝ)
    let newI : Particle :=
      { position := { x := pI.position.x - nx * overlap, y := pI.position.y - ny * overlap },
        velocity := { x := pJ.velocity.x + (rng k - 0.5) * p,
                      y := pJ.velocity.y + (rng (k + 1) - 0.5) * p } }
    let newJ : Particle :=
      { position := { x := pJ.position.x + nx * overlap, y := pJ.position.y + ny * overlap },
        velocity := { x := pI.velocity.x + (rng (k + 2) - 0.5) * p,
                      y := pI.velocity.y + (rng (k + 3) - 0.5) * p } }
    ((ps.set i newI).set j newJ, k + 4)
  else
    (ps, k)

/-- Grid cell of a position: `(floor((x+half)/cellSize), floor((y+half)/cellSize))`. -/
noncomputable def cellOf (half cellSize : ℝ) (v : Vector2) : ℤ × ℤ :=
  (⌊(v.x + half) / cellSize⌋, ⌊(v.y + half) / cellSize⌋)

/-- The nine cells visited by the 3x3 neighborhood scan, in the C++ loop
order (`nx` outer from `cx-1` to `cx+1`, `ny` inner). -/
def neighborhood (c : ℤ × ℤ) : List (ℤ × ℤ) :=
  [(c.1 - 1, c.2 - 1), (c.1 - 1, c.2), (c.1 - 1, c.2 + 1),
   (c.1, c.2 - 1), (c.1, c.2), (c.1, c.2 + 1),
   (c.1 + 1, c.2 - 1), (c.1 + 1, c.2), (c.1 + 1, c.2 + 1)]

/-- The spatial hash: bucket of cell `c` holds the indices of the particles
whose cell is `c`, in increasing index order (the C++ build loop appends
`i = 0, 1, ...` in order).  Absent cells are empty buckets. -/
noncomputable def gridBuild (half cellSize : ℝ) (ps : List Particle) : ℤ × ℤ → List ℕ :=
  fun c => (List.range ps.length).filter
    (fun m => cellOf half cellSize ((ps.getD m default).position) = c)

/-- Body of the innermost narrow-phase loop for a candidate `j` that passed
the `j <= i` skip: recompute the current squared distance and resolve if the
particles overlap. -/
noncomputable def stepPair (radius : ℝ) (rng : ℕ → ℝ) (i : ℕ)
    (st : List Particle × ℕ) (j : ℕ) : List Particle × ℕ :=
  let dx := ((st.1.getD j default).position.x - (st.1.getD i default).position.x)
  let dy := ((st.1.getD j default).position.y - (st.1.getD i default).position.y)
  if dx * dx + dy * dy < (2 * radius) * (2 * radius) then
    ResolveCollision radius rng st.1 st.2 i j
  else st

/-- Scan one bucket for particle `i`: candidates with `j <= i` are skipped. -/
noncomputable def scanBucket (radius : ℝ) (rng : ℕ → ℝ) (i : ℕ)
    (st : List Particle × ℕ) (bucket : List ℕ) : List Particle × ℕ :=
  bucket.foldl (fun st j => if j ≤ i then st else stepPair radius rng i st j) st

/-- Scan the 3x3 neighborhood of particle `i`'s current cell. -/
noncomputable def scanParticle (radius half cellSize : ℝ) (rng : ℕ → ℝ)
    (grid : ℤ × ℤ → List ℕ) (st : List Particle × ℕ) (i : ℕ) : List Particle × ℕ :=
  let c := cellOf half cellSize ((st.1.getD i default).position)
  (neighborhood c).foldl (fun st c1 => scanBucket radius rng i st (grid c1)) st

/-- One simulation step: integrate and bounce every particle, build the grid
from the post-integration snapshot (cell size `2*radius`), then run the
narrow phase for `i = 0, ..., n-1`. -/
noncomputable def StepSimulation (radius areaSize dt : ℝ) (rng : ℕ → ℝ)
    (ps : List Particle) (k : ℕ) : List Particle × ℕ :=
  let half := areaSize * 0.5
  let ps1 := ps.map (integrateParticle radius half dt)
  let cellSize := 2 * radius
  let grid := gridBuild half cellSize ps1
  (List.range ps1.length).foldl (scanParticle radius half cellSize rng grid) (ps1, k)

/-! ### Integration-phase lemmas -/

/-- The one-axis wall-handling expression keeps the coordinate within
`[-(half - radius), half - radius]` whenever `radius ≤ half`. -/
lemma axis_clamp_abs_le (radius half px : ℝ) (hr : radius ≤ half) :
    |if px - radius < -half then -half + radius
     else if px + radius > half then half - radius else px| ≤ half - radius := by
  split_ifs with h1 h2 <;> rw [abs_le] <;> constructor <;> linarith

lemma integration_containment_aux (radius areaSize dt : ℝ) (ps : List Particle)
    (hr : radius ≤ areaSize / 2) :
    ∀ q ∈ ps.map (integrateParticle radius (areaSize * 0.5) dt),
      |q.position.x| ≤ areaSize / 2 - radius ∧ |q.position.y| ≤ areaSize / 2 - radius := by
  intro q hq
  obtain ⟨pt, _, rfl⟩ := List.mem_map.mp hq
  have hhalf : areaSize * 0.5 = areaSize / 2 := by ring
  constructor
  · have := axis_clamp_abs_le radius (areaSize * 0.5)
      (pt.position.x + pt.velocity.x * dt) (by linarith [hhalf ▸ hr])
    simpa [integrateParticle, hhalf] using this
  · have := axis_clamp_abs_le radius (areaSize * 0.5)
      (pt.position.y + pt.velocity.y * dt) (by linarith [hhalf ▸ hr])
    simpa [integrateParticle, hhalf] using this

/-- C9: assuming `radius ≤ areaSize/2`, immediately after the
integration-and-wall-handling phase of `StepSimulation` every particle
satisfies `|position.x| ≤ areaSize/2 - radius` and
`|position.y| ≤ areaSize/2 - radius`, for any pre-step positions and
velocities. -/
theorem integration_strict_containment (radius areaSize dt : ℝ) (ps : List Particle)
    (hr : radius ≤ areaSize / 2) :
    ∀ q ∈ ps.map (integrateParticle radius (areaSize * 0.5) dt),
      |q.position.x| ≤ areaSize / 2 - radius ∧ |q.position.y| ≤ areaSize / 2 - radius :=
  integration_containment_aux radius areaSize dt ps hr

/-- C9 witness at the program constants. -/
theorem integration_strict_containment_witness :
    (4 : ℝ) ≤ 600 / 2 ∧
      ∀ q ∈ [(⟨⟨17, -250⟩, ⟨80, -80⟩⟩ : Particle)].map
          (integrateParticle 4 (600 * 0.5) (1 / 60)),
        |q.position.x| ≤ 600 / 2 - 4 ∧ |q.position.y| ≤ 600 / 2 - 4 :=
  ⟨by norm_num,
   integration_strict_containment 4 600 (1 / 60) [⟨⟨17, -250⟩, ⟨80, -80⟩⟩] (by norm_num)⟩

/-- C1 (amended): assuming `0 ≤ radius ≤ areaSize/2`, after the
integration-and-wall-bounce phase of a step every particle satisfies
`|x| ≤ areaSize/2` and `|y| ≤ areaSize/2`.  (The subsequent collision
resolution phase can break this bound; see the counterexample.) -/
theorem containment_after_integration_phase (radius areaSize dt : ℝ) (ps : List Particle)
    (hr0 : 0 ≤ radius) (hr : radius ≤ areaSize / 2) :
    ∀ q ∈ ps.map (integrateParticle radius (areaSize * 0.5) dt),
      |q.position.x| ≤ areaSize / 2 ∧ |q.position.y| ≤ areaSize / 2 := by
  intro q hq
  obtain ⟨h1, h2⟩ := integration_containment_aux radius areaSize dt ps hr q hq
  exact ⟨by linarith, by linarith⟩

/-- C1 (amended) witness at the program constants. -/
theorem containment_after_integration_phase_witness :
    ((0 : ℝ) ≤ 4 ∧ (4 : ℝ) ≤ 600 / 2) ∧
      ∀ q ∈ [(⟨⟨290, 100⟩, ⟨200, 0⟩⟩ : Particle)].map
          (integrateParticle 4 (600 * 0.5) (1 / 60)),
        |q.position.x| ≤ 600 / 2 ∧ |q.position.y| ≤ 600 / 2 :=
  ⟨⟨by norm_num, by norm_num⟩,
   containment_after_integration_phase 4 600 (1 / 60) [⟨⟨290, 100⟩, ⟨200, 0⟩⟩]
     (by norm_num) (by norm_num)⟩

/-- C4: if the integrated x-position would cross `x = +half`
(`px + radius > half` with `px = position.x + velocity.x*dt`), the
integration phase clamps `position.x = half - radius` and negates
`velocity.x`; symmetrically at `-half`; and the y-outputs are a function of
the y-inputs alone, so the x-wall event leaves them unchanged.
Hypothesis `radius ≤ areaSize/2` reflects the program constants. -/
theorem wall_reflection (radius areaSize dt : ℝ) (pt : Particle)
    (hr : radius ≤ areaSize * 0.5) :
    ((pt.position.x + pt.velocity.x * dt) + radius > areaSize * 0.5 →
        (integrateParticle radius (areaSize * 0.5) dt pt).position.x
            = areaSize * 0.5 - radius ∧
        (integrateParticle radius (areaSize * 0.5) dt pt).velocity.x = -pt.velocity.x) ∧
    ((pt.position.x + pt.velocity.x * dt) - radius < -(areaSize * 0.5) →
        (integrateParticle radius (areaSize * 0.5) dt pt).position.x
            = -(areaSize * 0.5) + radius ∧
        (integrateParticle radius (areaSize * 0.5) dt pt).velocity.x = -pt.velocity.x) ∧
    (∀ pt2 : Particle, pt2.position.y = pt.position.y → pt2.velocity.y = pt.velocity.y →
        (integrateParticle radius (areaSize * 0.5) dt pt2).position.y
            = (integrateParticle radius (areaSize * 0.5) dt pt).position.y ∧
        (integrateParticle radius (areaSize * 0.5) dt pt2).velocity.y
            = (integrateParticle radius (areaSize * 0.5) dt pt).velocity.y) := by
  refine ⟨fun hcross => ?_, fun hcross => ?_, fun pt2 hpy hvy => ?_⟩
  · have hnotlow : ¬ (pt.position.x + pt.velocity.x * dt) - radius < -(areaSize * 0.5) := by
      push_neg
      linarith
    constructor <;> simp [integrateParticle, hnotlow, hcross]
  · constructor <;> simp [integrateParticle, hcross]
  · constructor <;> simp [integrateParticle, hpy, hvy]

/-- C4 witness: radius 4, areaSize 600, dt 1/60, a particle at `(299, 7)`
with velocity `(120, 3)` crosses the `+half` wall and is clamped to
`x = 296` with `velocity.x = -120`. -/
theorem wall_reflection_witness :
    (4 : ℝ) ≤ 600 * 0.5 ∧
    (integrateParticle 4 (600 * 0.5) (1 / 60) ⟨⟨299, 7⟩, ⟨120, 3⟩⟩).position.x = 296 ∧
    (integrateParticle 4 (600 * 0.5) (1 / 60) ⟨⟨299, 7⟩, ⟨120, 3⟩⟩).velocity.x = -120 := by
  have h := (wall_reflection 4 600 (1 / 60) ⟨⟨299, 7⟩, ⟨120, 3⟩⟩ (by norm_num)).1 (by norm_num)
  refine ⟨by norm_num, ?_, ?_⟩
  · rw [h.1]; norm_num
  · simpa using h.2

/-! ### ResolveCollision evaluation lemmas -/

lemma getD_set_set_of_ne (l : List Particle) (i j m : ℕ) (a b : Particle)
    (hmi : m ≠ i) (hmj : m ≠ j) :
    ((l.set i a).set j b).getD m default = l.getD m default := by
  simp [List.getD_eq_getElem?_getD, List.getElem?_set_ne (Ne.symm hmj),
    List.getElem?_set_ne (Ne.symm hmi)]

lemma getD_set_set_self_i (l : List Particle) (i j : ℕ) (a b : Particle)
    (hi : i < l.length) (hij : i ≠ j) :
    ((l.set i a).set j b).getD i default = a := by
  simp [List.getD_eq_getElem?_getD, List.getElem?_set_ne (Ne.symm hij),
    List.getElem?_set_self, hi]

lemma getD_set_set_self_j (l : List Particle) (i j : ℕ) (a b : Particle)
    (hj : j < l.length) :
    ((l.set i a).set j b).getD j default = b := by
  simp [List.getD_eq_getElem?_getD, List.getElem?_set_self, hj]

/-- Evaluation of `ResolveCollision` in the generic overlapping case
(`dist2 ≠ 0`, overlap detected), with the square root provided as an exact
value `s`. -/
lemma ResolveCollision_eq (radius : ℝ) (rng : ℕ → ℝ) (ps : List Particle) (k i j : ℕ)
    (pI pJ : Particle) (dx dy d2 s : ℝ)
    (hpI : ps.getD i default = pI) (hpJ : ps.getD j default = pJ)
    (hdx : dx = pJ.position.x - pI.position.x) (hdy : dy = pJ.position.y - pI.position.y)
    (hd2 : d2 = dx * dx + dy * dy)
    (hne : d2 ≠ 0) (hlt : d2 < (2 * radius) * (2 * radius))
    (hs : 0 < s) (hss : s * s = d2) :
    ResolveCollision radius rng ps k i j =
      ((ps.set i
          { position := { x := pI.position.x - dx / s * (0.5 * (2 * radius - s)),
                          y := pI.position.y - dy / s * (0.5 * (2 * radius - s)) },
            velocity := { x := pJ.velocity.x + (rng k - 0.5) * 0.01,
                          y := pJ.velocity.y + (rng (k + 1) - 0.5) * 0.01 } }).set j
          { position := { x := pJ.position.x + dx / s * (0.5 * (2 * radius - s)),
                          y := pJ.position.y + dy / s * (0.5 * (2 * radius - s)) },
            velocity := { x := pI.velocity.x + (rng (k + 2) - 0.5) * 0.01,
                          y := pI.velocity.y + (rng (k + 3) - 0.5) * 0.01 } }, k + 4) := by
  have hsqrt : Real.sqrt d2 = s := by
    rw [← hss, Real.sqrt_mul_self hs.le]
  simp only [ResolveCollision, hpI, hpJ, ← hdx, ← hdy, ← hd2, if_neg hne, if_pos hlt, hsqrt]

/-- Evaluation of `ResolveCollision` in the degenerate coincident case:
the nudge `(1e-3, 0)` is substituted, the normal becomes `(1, 0)`, and both
particles are displaced by half of `2*radius - 1e-3` along the x-axis. -/
lemma ResolveCollision_coincident_eq (radius : ℝ) (rng : ℕ → ℝ) (ps : List Particle)
    (k i j : ℕ) (pI pJ : Particle)
    (hpI : ps.getD i default = pI) (hpJ : ps.getD j default = pJ)
    (hx : pJ.position.x = pI.position.x) (hy : pJ.position.y = pI.position.y)
    (hrad : (1e-3 : ℝ) < 2 * radius) :
    ResolveCollision radius rng ps k i j =
      ((ps.set i
          { position := { x := pI.position.x - 0.5 * (2 * radius - 1e-3),
                          y := pI.position.y },
            velocity := { x := pJ.velocity.x + (rng k - 0.5) * 0.01,
                          y := pJ.velocity.y + (rng (k + 1) - 0.5) * 0.01 } }).set j
          { position := { x := pJ.position.x + 0.5 * (2 * radius - 1e-3),
                          y := pJ.position.y },
            velocity := { x := pI.velocity.x + (rng (k + 2) - 0.5) * 0.01,
                          y := pI.velocity.y + (rng (k + 3) - 0.5) * 0.01 } }, k + 4) := by
  have h0 : pJ.position.x - pI.position.x = 0 := by rw [hx, sub_self]
  have h0y : pJ.position.y - pI.position.y = 0 := by rw [hy, sub_self]
  have hd20 : (pJ.position.x - pI.position.x) * (pJ.position.x - pI.position.x) +
      (pJ.position.y - pI.position.y) * (pJ.position.y - pI.position.y) = 0 := by
    rw [h0, h0y]; ring
  have hlt : (1e-3 : ℝ) * 1e-3 + 0 * 0 < (2 * radius) * (2 * radius) := by
    nlinarith [hrad]
  have hsqrt : Real.sqrt ((1e-3 : ℝ) * 1e-3 + 0 * 0) = 1e-3 := by
    rw [show ((1e-3 : ℝ) * 1e-3 + 0 * 0) = 1e-3 * 1e-3 by ring,
      Real.sqrt_mul_self (by norm_num)]
  simp only [ResolveCollision, hpI, hpJ, if_pos hd20, hsqrt, if_pos hlt]
  norm_num

/-- C10: `ResolveCollision(i, j)` mutates at most particles `i` and `j`,
preserves the length of the particle array, and when the pair's squared
distance is nonzero and at least `(2*radius)^2` it modifies nothing at
all. -/
theorem resolve_frame_condition (radius : ℝ) (rng : ℕ → ℝ) (ps : List Particle)
    (k i j : ℕ) :
    (∀ m, m ≠ i → m ≠ j →
      (ResolveCollision radius rng ps k i j).1.getD m default = ps.getD m default) ∧
    (ResolveCollision radius rng ps k i j).1.length = ps.length ∧
    (((ps.getD j default).position.x - (ps.getD i default).position.x) *
        ((ps.getD j default).position.x - (ps.getD i default).position.x) +
      ((ps.getD j default).position.y - (ps.getD i default).position.y) *
        ((ps.getD j default).position.y - (ps.getD i default).position.y) ≠ 0 →
      (2 * radius) ^ 2 ≤
        ((ps.getD j default).position.x - (ps.getD i default).position.x) *
            ((ps.getD j default).position.x - (ps.getD i default).position.x) +
          ((ps.getD j default).position.y - (ps.getD i default).position.y) *
            ((ps.getD j default).position.y - (ps.getD i default).position.y) →
      ResolveCollision radius rng ps k i j = (ps, k)) := by
  refine ⟨fun m hmi hmj => ?_, ?_, fun hne hge => ?_⟩
  · simp only [ResolveCollision]
    split_ifs <;>
      first
        | rfl
        | exact getD_set_set_of_ne _ _ _ _ _ _ hmi hmj
  · simp only [ResolveCollision]
    split_ifs <;> simp
  · simp only [ResolveCollision, if_neg hne]
    rw [if_neg]
    push_neg
    calc (2 * radius) * (2 * radius) = (2 * radius) ^ 2 := by ring
    _ ≤ _ := hge

/-- C10 witness: three particles, pair `(0, 1)` at distance 5 with
`radius = 1`: nothing at all is modified, and particle 2 is untouched. -/
theorem resolve_frame_condition_witness :
    ((ResolveCollision 1 (fun _ => (1 : ℝ) / 2)
        [⟨⟨0, 0⟩, ⟨1, 2⟩⟩, ⟨⟨5, 0⟩, ⟨3, 4⟩⟩, ⟨⟨9, 9⟩, ⟨5, 6⟩⟩] 0 0 1).1.getD 2 default
      = ⟨⟨9, 9⟩, ⟨5, 6⟩⟩) ∧
    (ResolveCollision 1 (fun _ => (1 : ℝ) / 2)
        [⟨⟨0, 0⟩, ⟨1, 2⟩⟩, ⟨⟨5, 0⟩, ⟨3, 4⟩⟩, ⟨⟨9, 9⟩, ⟨5, 6⟩⟩] 0 0 1).1.length = 3 ∧
    ResolveCollision 1 (fun _ => (1 : ℝ) / 2)
        [⟨⟨0, 0⟩, ⟨1, 2⟩⟩, ⟨⟨5, 0⟩, ⟨3, 4⟩⟩, ⟨⟨9, 9⟩, ⟨5, 6⟩⟩] 0 0 1
      = ([⟨⟨0, 0⟩, ⟨1, 2⟩⟩, ⟨⟨5, 0⟩, ⟨3, 4⟩⟩, ⟨⟨9, 9⟩, ⟨5, 6⟩⟩], 0) := by
  have h := resolve_frame_condition 1 (fun _ => (1 : ℝ) / 2)
    [⟨⟨0, 0⟩, ⟨1, 2⟩⟩, ⟨⟨5, 0⟩, ⟨3, 4⟩⟩, ⟨⟨9, 9⟩, ⟨5, 6⟩⟩] 0 0 1
  have hnoop := h.2.2 (by norm_num [List.getD]) (by norm_num [List.getD])
  refine ⟨?_, h.2.1, hnoop⟩
  rw [hnoop]
  simp [List.getD]

/-! ### Narrow-phase pair resolution: C5, C6, C7 -/

/-- C5: in exact real arithmetic, for a pair at center distance `d` with
`0 < d < 2*radius`, `ResolveCollision` displaces each particle by
`(2*radius - d)/2` along the unit line of centers, in opposite directions,
and the resulting center distance is exactly `2*radius`. -/
theorem resolve_separates_to_contact (radius : ℝ) (rng : ℕ → ℝ) (ps : List Particle)
    (k i j : ℕ) (pI pJ : Particle) (dx dy d2 : ℝ)
    (hi : i < ps.length) (hj : j < ps.length) (hij : i ≠ j) (hr : 0 < radius)
    (hpI : ps.getD i default = pI) (hpJ : ps.getD j default = pJ)
    (hdx : dx = pJ.position.x - pI.position.x) (hdy : dy = pJ.position.y - pI.position.y)
    (hd2 : d2 = dx * dx + dy * dy)
    (hpos : 0 < d2) (hlt : d2 < (2 * radius) ^ 2) :
    ((ResolveCollision radius rng ps k i j).1.getD i default).position.x
        = pI.position.x - dx / Real.sqrt d2 * ((2 * radius - Real.sqrt d2) / 2) ∧
    ((ResolveCollision radius rng ps k i j).1.getD i default).position.y
        = pI.position.y - dy / Real.sqrt d2 * ((2 * radius - Real.sqrt d2) / 2) ∧
    ((ResolveCollision radius rng ps k i j).1.getD j default).position.x
        = pJ.position.x + dx / Real.sqrt d2 * ((2 * radius - Real.sqrt d2) / 2) ∧
    ((ResolveCollision radius rng ps k i j).1.getD j default).position.y
        = pJ.position.y + dy / Real.sqrt d2 * ((2 * radius - Real.sqrt d2) / 2) ∧
    (((ResolveCollision radius rng ps k i j).1.getD j default).position.x
          - ((ResolveCollision radius rng ps k i j).1.getD i default).position.x) ^ 2
      + (((ResolveCollision radius rng ps k i j).1.getD j default).position.y
          - ((ResolveCollision radius rng ps k i j).1.getD i default).position.y) ^ 2
        = (2 * radius) ^ 2 ∧
    Real.sqrt
        ((((ResolveCollision radius rng ps k i j).1.getD j default).position.x
            - ((ResolveCollision radius rng ps k i j).1.getD i default).position.x) ^ 2
          + (((ResolveCollision radius rng ps k i j).1.getD j default).position.y
            - ((ResolveCollision radius rng ps k i j).1.getD i default).position.y) ^ 2)
      = 2 * radius := by
  have hs : 0 < Real.sqrt d2 := Real.sqrt_pos.mpr hpos
  have hss : Real.sqrt d2 * Real.sqrt d2 = d2 := Real.mul_self_sqrt hpos.le
  have hlt' : d2 < (2 * radius) * (2 * radius) := by nlinarith [hlt]
  have heq := ResolveCollision_eq radius rng ps k i j pI pJ dx dy d2 (Real.sqrt d2)
    hpI hpJ hdx hdy hd2 (ne_of_gt hpos) hlt' hs hss
  rw [heq]
  rw [getD_set_set_self_i ps i j _ _ hi hij, getD_set_set_self_j ps i j _ _ hj]
  have hsne : Real.sqrt d2 ≠ 0 := ne_of_gt hs
  have hc5 : (pJ.position.x + dx / Real.sqrt d2 * (0.5 * (2 * radius - Real.sqrt d2))
        - (pI.position.x - dx / Real.sqrt d2 * (0.5 * (2 * radius - Real.sqrt d2)))) ^ 2
      + (pJ.position.y + dy / Real.sqrt d2 * (0.5 * (2 * radius - Real.sqrt d2))
        - (pI.position.y - dy / Real.sqrt d2 * (0.5 * (2 * radius - Real.sqrt d2)))) ^ 2
      = (2 * radius) ^ 2 := by
    have hJx : pJ.position.x = pI.position.x + dx := by rw [hdx]; ring
    have hJy : pJ.position.y = pI.position.y + dy := by rw [hdy]; ring
    rw [hJx, hJy]
    have e1 : pI.position.x + dx + dx / Real.sqrt d2 * (0.5 * (2 * radius - Real.sqrt d2))
        - (pI.position.x - dx / Real.sqrt d2 * (0.5 * (2 * radius - Real.sqrt d2)))
        = dx * (2 * radius) / Real.sqrt d2 := by
      field_simp
      ring
    have e2 : pI.position.y + dy + dy / Real.sqrt d2 * (0.5 * (2 * radius - Real.sqrt d2))
        - (pI.position.y - dy / Real.sqrt d2 * (0.5 * (2 * radius - Real.sqrt d2)))
        = dy * (2 * radius) / Real.sqrt d2 := by
      field_simp
      ring
    rw [e1, e2]
    field_simp
    linear_combination (-(4 : ℝ) * radius ^ 2) * hd2
  refine ⟨by ring, by ring, by ring, by ring, hc5, ?_⟩
  show Real.sqrt
      ((pJ.position.x + dx / Real.sqrt d2 * (0.5 * (2 * radius - Real.sqrt d2))
          - (pI.position.x - dx / Real.sqrt d2 * (0.5 * (2 * radius - Real.sqrt d2)))) ^ 2
        + (pJ.position.y + dy / Real.sqrt d2 * (0.5 * (2 * radius - Real.sqrt d2))
          - (pI.position.y - dy / Real.sqrt d2 * (0.5 * (2 * radius - Real.sqrt d2)))) ^ 2)
      = 2 * radius
  rw [hc5, Real.sqrt_sq (by linarith : (0 : ℝ) ≤ 2 * radius)]

/-- C5 witness: radius 1, particles at `(0,0)` and `(1,0)`; after
resolution they sit at `(-1/2, 0)` and `(3/2, 0)`, at distance exactly 2. -/
theorem resolve_separates_to_contact_witness :
    ((ResolveCollision 1 (fun _ => (1 : ℝ) / 2)
        [⟨⟨0, 0⟩, ⟨0, 0⟩⟩, ⟨⟨1, 0⟩, ⟨0, 0⟩⟩] 0 0 1).1.getD 0 default).position.x = -(1 / 2) ∧
    ((ResolveCollision 1 (fun _ => (1 : ℝ) / 2)
        [⟨⟨0, 0⟩, ⟨0, 0⟩⟩, ⟨⟨1, 0⟩, ⟨0, 0⟩⟩] 0 0 1).1.getD 1 default).position.x = 3 / 2 ∧
    (((ResolveCollision 1 (fun _ => (1 : ℝ) / 2)
          [⟨⟨0, 0⟩, ⟨0, 0⟩⟩, ⟨⟨1, 0⟩, ⟨0, 0⟩⟩] 0 0 1).1.getD 1 default).position.x
        - ((ResolveCollision 1 (fun _ => (1 : ℝ) / 2)
          [⟨⟨0, 0⟩, ⟨0, 0⟩⟩, ⟨⟨1, 0⟩, ⟨0, 0⟩⟩] 0 0 1).1.getD 0 default).position.x) ^ 2
      + (((ResolveCollision 1 (fun _ => (1 : ℝ) / 2)
          [⟨⟨0, 0⟩, ⟨0, 0⟩⟩, ⟨⟨1, 0⟩, ⟨0, 0⟩⟩] 0 0 1).1.getD 1 default).position.y
        - ((ResolveCollision 1 (fun _ => (1 : ℝ) / 2)
          [⟨⟨0, 0⟩, ⟨0, 0⟩⟩, ⟨⟨1, 0⟩, ⟨0, 0⟩⟩] 0 0 1).1.getD 0 default).position.y) ^ 2
      = (2 * 1) ^ 2 := by
  have h := resolve_separates_to_contact 1 (fun _ => (1 : ℝ) / 2)
    [⟨⟨0, 0⟩, ⟨0, 0⟩⟩, ⟨⟨1, 0⟩, ⟨0, 0⟩⟩] 0 0 1
    ⟨⟨0, 0⟩, ⟨0, 0⟩⟩ ⟨⟨1, 0⟩, ⟨0, 0⟩⟩ 1 0 1
    (by norm_num) (by norm_num) (by norm_num) (by norm_num)
    rfl rfl (by norm_num) (by norm_num) (by norm_num) (by norm_num) (by norm_num)
  obtain ⟨h1, -, h3, -, h5, -⟩ := h
  refine ⟨?_, ?_, h5⟩
  · rw [h1, Real.sqrt_one]; norm_num
  · rw [h3, Real.sqrt_one]; norm_num

/-- C6: for a colliding pair (current squared center distance below
`(2*radius)^2`) and with the random perturbation forced to zero (every rng
draw equal to `1/2`, so each perturbation term is `(1/2 - 0.5) * 0.01 = 0`),
`ResolveCollision` exchanges the two velocities exactly, both components. -/
theorem resolve_swaps_velocities (radius : ℝ) (ps : List Particle) (k i j : ℕ)
    (hi : i < ps.length) (hj : j < ps.length) (hij : i ≠ j)
    (hr : (1e-3 : ℝ) ≤ radius)
    (hlt : ((ps.getD j default).position.x - (ps.getD i default).position.x) *
          ((ps.getD j default).position.x - (ps.getD i default).position.x) +
        ((ps.getD j default).position.y - (ps.getD i default).position.y) *
          ((ps.getD j default).position.y - (ps.getD i default).position.y)
        < (2 * radius) ^ 2) :
    ((ResolveCollision radius (fun _ => (1 : ℝ) / 2) ps k i j).1.getD i default).velocity
        = (ps.getD j default).velocity ∧
    ((ResolveCollision radius (fun _ => (1 : ℝ) / 2) ps k i j).1.getD j default).velocity
        = (ps.getD i default).velocity := by
  have hrad : (1e-3 : ℝ) < 2 * radius := by linarith
  by_cases hd0 : ((ps.getD j default).position.x - (ps.getD i default).position.x) *
      ((ps.getD j default).position.x - (ps.getD i default).position.x) +
      ((ps.getD j default).position.y - (ps.getD i default).position.y) *
      ((ps.getD j default).position.y - (ps.getD i default).position.y) = 0
  · have hx : (ps.getD j default).position.x = (ps.getD i default).position.x := by
      nlinarith [mul_self_nonneg ((ps.getD j default).position.x - (ps.getD i default).position.x),
        mul_self_nonneg ((ps.getD j default).position.y - (ps.getD i default).position.y)]
    have hy : (ps.getD j default).position.y = (ps.getD i default).position.y := by
      nlinarith [mul_self_nonneg ((ps.getD j default).position.x - (ps.getD i default).position.x),
        mul_self_nonneg ((ps.getD j default).position.y - (ps.getD i default).position.y)]
    rw [ResolveCollision_coincident_eq radius _ ps k i j _ _ rfl rfl hx hy hrad]
    rw [getD_set_set_self_i ps i j _ _ hi hij, getD_set_set_self_j ps i j _ _ hj]
    constructor <;> exact Vector2.ext (by norm_num) (by norm_num)
  · have hge : (0 : ℝ) ≤ ((ps.getD j default).position.x - (ps.getD i default).position.x) *
        ((ps.getD j default).position.x - (ps.getD i default).position.x) +
        ((ps.getD j default).position.y - (ps.getD i default).position.y) *
        ((ps.getD j default).position.y - (ps.getD i default).position.y) := by
      nlinarith [mul_self_nonneg ((ps.getD j default).position.x - (ps.getD i default).position.x),
        mul_self_nonneg ((ps.getD j default).position.y - (ps.getD i default).position.y)]
    have hpos : (0 : ℝ) < _ := lt_of_le_of_ne hge (Ne.symm hd0)
    rw [ResolveCollision_eq radius _ ps k i j _ _ _ _ _ (Real.sqrt _) rfl rfl rfl rfl rfl
      hd0 (by nlinarith [hlt]) (Real.sqrt_pos.mpr hpos) (Real.mul_self_sqrt hpos.le)]
    rw [getD_set_set_self_i ps i j _ _ hi hij, getD_set_set_self_j ps i j _ _ hj]
    constructor <;> exact Vector2.ext (by norm_num) (by norm_num)

/-- C6 witness: radius 1, particles at `(0,0)` and `(1,0)` with velocities
`(3,4)` and `(-5,6)`; after resolution the velocities are exchanged. -/
theorem resolve_swaps_velocities_witness :
    ((ResolveCollision 1 (fun _ => (1 : ℝ) / 2)
        [⟨⟨0, 0⟩, ⟨3, 4⟩⟩, ⟨⟨1, 0⟩, ⟨-5, 6⟩⟩] 0 0 1).1.getD 0 default).velocity
        = (⟨-5, 6⟩ : Vector2) ∧
    ((ResolveCollision 1 (fun _ => (1 : ℝ) / 2)
        [⟨⟨0, 0⟩, ⟨3, 4⟩⟩, ⟨⟨1, 0⟩, ⟨-5, 6⟩⟩] 0 0 1).1.getD 1 default).velocity
        = (⟨3, 4⟩ : Vector2) := by
  have h := resolve_swaps_velocities 1 [⟨⟨0, 0⟩, ⟨3, 4⟩⟩, ⟨⟨1, 0⟩, ⟨-5, 6⟩⟩] 0 0 1
    (by norm_num) (by norm_num) (by norm_num) (by norm_num)
    (by norm_num [List.getD])
  exact ⟨h.1, h.2⟩

/-- C7: on two exactly coincident particles, `ResolveCollision` substitutes
the fixed nudge `(1e-3, 0)`, so the normal is well defined, and after the
call the pair has the exact separation `(2*radius - 1e-3, 0)` (a positive,
well-defined distance) and well-defined velocities (the swapped velocities
plus the bounded perturbation draws). -/
theorem resolve_coincident_safe (radius : ℝ) (rng : ℕ → ℝ) (ps : List Particle)
    (k i j : ℕ) (hi : i < ps.length) (hj : j < ps.length) (hij : i ≠ j)
    (hr : (1e-3 : ℝ) ≤ radius)
    (hx : (ps.getD j default).position.x = (ps.getD i default).position.x)
    (hy : (ps.getD j default).position.y = (ps.getD i default).position.y) :
    ((ResolveCollision radius rng ps k i j).1.getD j default).position.x
        - ((ResolveCollision radius rng ps k i j).1.getD i default).position.x
        = 2 * radius - 1e-3 ∧
    ((ResolveCollision radius rng ps k i j).1.getD j default).position.y
        - ((ResolveCollision radius rng ps k i j).1.getD i default).position.y = 0 ∧
    (0 : ℝ) < 2 * radius - 1e-3 ∧
    ((ResolveCollision radius rng ps k i j).1.getD i default).velocity
        = ⟨(ps.getD j default).velocity.x + (rng k - 0.5) * 0.01,
           (ps.getD j default).velocity.y + (rng (k + 1) - 0.5) * 0.01⟩ ∧
    ((ResolveCollision radius rng ps k i j).1.getD j default).velocity
        = ⟨(ps.getD i default).velocity.x + (rng (k + 2) - 0.5) * 0.01,
           (ps.getD i default).velocity.y + (rng (k + 3) - 0.5) * 0.01⟩ := by
  have hrad : (1e-3 : ℝ) < 2 * radius := by linarith
  rw [ResolveCollision_coincident_eq radius rng ps k i j _ _ rfl rfl hx hy hrad]
  rw [getD_set_set_self_i ps i j _ _ hi hij, getD_set_set_self_j ps i j _ _ hj]
  refine ⟨?_, ?_, by linarith, rfl, rfl⟩
  · show (ps.getD j default).position.x + 0.5 * (2 * radius - 1e-3)
        - ((ps.getD i default).position.x - 0.5 * (2 * radius - 1e-3)) = 2 * radius - 1e-3
    rw [hx]; ring
  · show (ps.getD j default).position.y - (ps.getD i default).position.y = 0
    rw [hy]; ring

/-- C7 witness: radius 1, both particles at `(2,3)`; the resolved pair is
separated by `(2 - 1e-3, 0)` and both velocities are well defined. -/
theorem resolve_coincident_safe_witness :
    ((ResolveCollision 1 (fun _ => (1 : ℝ) / 2)
        [⟨⟨2, 3⟩, ⟨1, 2⟩⟩, ⟨⟨2, 3⟩, ⟨3, 4⟩⟩] 0 0 1).1.getD 1 default).position.x
        - ((ResolveCollision 1 (fun _ => (1 : ℝ) / 2)
        [⟨⟨2, 3⟩, ⟨1, 2⟩⟩, ⟨⟨2, 3⟩, ⟨3, 4⟩⟩] 0 0 1).1.getD 0 default).position.x
        = 2 - 1e-3 ∧
    ((ResolveCollision 1 (fun _ => (1 : ℝ) / 2)
        [⟨⟨2, 3⟩, ⟨1, 2⟩⟩, ⟨⟨2, 3⟩, ⟨3, 4⟩⟩] 0 0 1).1.getD 1 default).position.y
        - ((ResolveCollision 1 (fun _ => (1 : ℝ) / 2)
        [⟨⟨2, 3⟩, ⟨1, 2⟩⟩, ⟨⟨2, 3⟩, ⟨3, 4⟩⟩] 0 0 1).1.getD 0 default).position.y = 0 ∧
    ((ResolveCollision 1 (fun _ => (1 : ℝ) / 2)
        [⟨⟨2, 3⟩, ⟨1, 2⟩⟩, ⟨⟨2, 3⟩, ⟨3, 4⟩⟩] 0 0 1).1.getD 0 default).velocity
        = (⟨3, 4⟩ : Vector2) := by
  have h := resolve_coincident_safe 1 (fun _ => (1 : ℝ) / 2)
    [⟨⟨2, 3⟩, ⟨1, 2⟩⟩, ⟨⟨2, 3⟩, ⟨3, 4⟩⟩] 0 0 1
    (by norm_num) (by norm_num) (by norm_num) (by norm_num) rfl rfl
  refine ⟨?_, h.2.1, ?_⟩
  · have h1 := h.1
    convert h1 using 2
    norm_num
  · rw [h.2.2.2.1]
    exact Vector2.ext (by norm_num) (by norm_num)

/-! ### Broad phase: C2 -/

/-- The candidate indices the 3x3 scan centred at cell `c` offers to
particle `i`: the nine buckets, concatenated in scan order, with the
`j <= i` candidates skipped. -/
noncomputable def candidatesOf (grid : ℤ × ℤ → List ℕ) (c : ℤ × ℤ) (i : ℕ) : List ℕ :=
  ((neighborhood c).flatMap grid).filter (fun j => i < j)

lemma floor_abs_sub_le (u v : ℝ) (h : |u - v| < 1) : |⌊u⌋ - ⌊v⌋| ≤ 1 := by
  rw [abs_lt] at h
  have h1 : ⌊u⌋ ≤ ⌊v⌋ + 1 := by
    have huv : u ≤ v + 1 := by linarith
    calc ⌊u⌋ ≤ ⌊v + 1⌋ := Int.floor_le_floor huv
    _ = ⌊v⌋ + 1 := by rw [Int.floor_add_one]
  have h2 : ⌊v⌋ ≤ ⌊u⌋ + 1 := by
    have hvu : v ≤ u + 1 := by linarith
    calc ⌊v⌋ ≤ ⌊u + 1⌋ := Int.floor_le_floor hvu
    _ = ⌊u⌋ + 1 := by rw [Int.floor_add_one]
  rw [abs_le]
  omega

lemma mem_neighborhood_of_abs_le (c x : ℤ × ℤ)
    (h1 : |x.1 - c.1| ≤ 1) (h2 : |x.2 - c.2| ≤ 1) : x ∈ neighborhood c := by
  rw [abs_le] at h1 h2
  obtain ⟨a, b⟩ := x
  simp only [neighborhood, List.mem_cons, List.mem_singleton, Prod.mk.injEq,
    Prod.ext_iff] at *
  omega

lemma overlap_pair_in_candidates_aux (radius half : ℝ) (ps : List Particle) (i j : ℕ)
    (hr : 0 < radius) (hij : i < j) (hj : j < ps.length)
    (hd : ((ps.getD j default).position.x - (ps.getD i default).position.x) ^ 2 +
        ((ps.getD j default).position.y - (ps.getD i default).position.y) ^ 2
        < (2 * radius) ^ 2) :
    |(cellOf half (2 * radius) (ps.getD j default).position).1 -
        (cellOf half (2 * radius) (ps.getD i default).position).1| ≤ 1 ∧
    |(cellOf half (2 * radius) (ps.getD j default).position).2 -
        (cellOf half (2 * radius) (ps.getD i default).position).2| ≤ 1 ∧
    j ∈ candidatesOf (gridBuild half (2 * radius) ps)
        (cellOf half (2 * radius) (ps.getD i default).position) i := by
  have h2r : (0 : ℝ) < 2 * radius := by linarith
  have hdx : |(ps.getD j default).position.x - (ps.getD i default).position.x| < 2 * radius := by
    refine abs_lt_of_sq_lt_sq ?_ h2r.le
    nlinarith [sq_nonneg ((ps.getD j default).position.y - (ps.getD i default).position.y)]
  have hdy : |(ps.getD j default).position.y - (ps.getD i default).position.y| < 2 * radius := by
    refine abs_lt_of_sq_lt_sq ?_ h2r.le
    nlinarith [sq_nonneg ((ps.getD j default).position.x - (ps.getD i default).position.x)]
  have hfx : |(cellOf half (2 * radius) (ps.getD j default).position).1 -
      (cellOf half (2 * radius) (ps.getD i default).position).1| ≤ 1 := by
    refine floor_abs_sub_le _ _ ?_
    have : ((ps.getD j default).position.x + half) / (2 * radius) -
        ((ps.getD i default).position.x + half) / (2 * radius)
        = ((ps.getD j default).position.x - (ps.getD i default).position.x) / (2 * radius) := by
      field_simp
    rw [this, abs_div, abs_of_pos h2r, div_lt_one h2r]
    exact hdx
  have hfy : |(cellOf half (2 * radius) (ps.getD j default).position).2 -
      (cellOf half (2 * radius) (ps.getD i default).position).2| ≤ 1 := by
    refine floor_abs_sub_le _ _ ?_
    have : ((ps.getD j default).position.y + half) / (2 * radius) -
        ((ps.getD i default).position.y + half) / (2 * radius)
        = ((ps.getD j default).position.y - (ps.getD i default).position.y) / (2 * radius) := by
      field_simp
    rw [this, abs_div, abs_of_pos h2r, div_lt_one h2r]
    exact hdy
  refine ⟨hfx, hfy, ?_⟩
  have hmemgrid : j ∈ gridBuild half (2 * radius) ps
      (cellOf half (2 * radius) (ps.getD j default).position) := by
    simp only [gridBuild, List.mem_filter, List.mem_range, decide_eq_true_eq]
    exact ⟨hj, trivial⟩
  have hmemnb : cellOf half (2 * radius) (ps.getD j default).position ∈
      neighborhood (cellOf half (2 * radius) (ps.getD i default).position) :=
    mem_neighborhood_of_abs_le _ _ hfx hfy
  simp only [candidatesOf, List.mem_filter, List.mem_flatMap, decide_eq_true_eq]
  exact ⟨⟨_, hmemnb, hmemgrid⟩, hij⟩

/-- C2: with cell size `2*radius`, two particles at center distance
strictly below `2*radius` get cell indices differing by at most 1 in each
coordinate, and hence (for `i < j < n`) `j` is among the candidates offered
by the 3x3 neighborhood scan centred at `i`'s cell. -/
theorem overlap_pair_in_candidates (radius half : ℝ) (ps : List Particle) (i j : ℕ)
    (hr : 0 < radius) (hij : i < j) (hj : j < ps.length)
    (hd : ((ps.getD j default).position.x - (ps.getD i default).position.x) ^ 2 +
        ((ps.getD j default).position.y - (ps.getD i default).position.y) ^ 2
        < (2 * radius) ^ 2) :
    |(cellOf half (2 * radius) (ps.getD j default).position).1 -
        (cellOf half (2 * radius) (ps.getD i default).position).1| ≤ 1 ∧
    |(cellOf half (2 * radius) (ps.getD j default).position).2 -
        (cellOf half (2 * radius) (ps.getD i default).position).2| ≤ 1 ∧
    j ∈ candidatesOf (gridBuild half (2 * radius) ps)
        (cellOf half (2 * radius) (ps.getD i default).position) i :=
  overlap_pair_in_candidates_aux radius half ps i j hr hij hj hd

/-- C2 witness: radius 1 (cell size 2), particles at `(0,0)` and `(1,0)`
(distance 1 < 2); both land in cell `(150, 150)` and index 1 is a candidate
for index 0. -/
theorem overlap_pair_in_candidates_witness :
    |(cellOf 300 (2 * 1) ((([⟨⟨0, 0⟩, ⟨0, 0⟩⟩, ⟨⟨1, 0⟩, ⟨0, 0⟩⟩] : List Particle).getD
          1 default)).position).1 -
        (cellOf 300 (2 * 1) ((([⟨⟨0, 0⟩, ⟨0, 0⟩⟩, ⟨⟨1, 0⟩, ⟨0, 0⟩⟩] : List Particle).getD
          0 default)).position).1| ≤ 1 ∧
    1 ∈ candidatesOf
        (gridBuild 300 (2 * 1) [⟨⟨0, 0⟩, ⟨0, 0⟩⟩, ⟨⟨1, 0⟩, ⟨0, 0⟩⟩])
        (cellOf 300 (2 * 1) ((([⟨⟨0, 0⟩, ⟨0, 0⟩⟩, ⟨⟨1, 0⟩, ⟨0, 0⟩⟩] : List Particle).getD
          0 default)).position) 0 := by
  have h := overlap_pair_in_candidates 1 300 [⟨⟨0, 0⟩, ⟨0, 0⟩⟩, ⟨⟨1, 0⟩, ⟨0, 0⟩⟩] 0 1
    (by norm_num) (by norm_num) (by norm_num) (by norm_num [List.getD])
  exact ⟨h.1, h.2.2⟩

/-! ### C3: instrumented narrow phase

`StepSimulationT` is `StepSimulation` instrumented with a trace: every
candidate pair that survives the `j <= i` skip (i.e. every pair at which
the narrow phase evaluates the distance test, and possibly the resolver)
is appended to the trace.  The projection lemmas show the instrumented
step computes exactly the same state as `StepSimulation`. -/

noncomputable def scanBucketT (radius : ℝ) (rng : ℕ → ℝ) (i : ℕ)
    (st : (List Particle × ℕ) × List (ℕ × ℕ)) (bucket : List ℕ) :
    (List Particle × ℕ) × List (ℕ × ℕ) :=
  bucket.foldl (fun st j => if j ≤ i then st
    else (stepPair radius rng i st.1 j, st.2 ++ [(i, j)])) st

noncomputable def scanParticleT (radius half cellSize : ℝ) (rng : ℕ → ℝ)
    (grid : ℤ × ℤ → List ℕ) (st : (List Particle × ℕ) × List (ℕ × ℕ)) (i : ℕ) :
    (List Particle × ℕ) × List (ℕ × ℕ) :=
  let c := cellOf half cellSize ((st.1.1.getD i default).position)
  (neighborhood c).foldl (fun st c1 => scanBucketT radius rng i st (grid c1)) st

noncomputable def StepSimulationT (radius areaSize dt : ℝ) (rng : ℕ → ℝ)
    (ps : List Particle) (k : ℕ) : (List Particle × ℕ) × List (ℕ × ℕ) :=
  let half := areaSize * 0.5
  let ps1 := ps.map (integrateParticle radius half dt)
  let cellSize := 2 * radius
  let grid := gridBuild half cellSize ps1
  (List.range ps1.length).foldl (scanParticleT radius half cellSize rng grid) ((ps1, k), [])

lemma scanBucketT_fst (radius : ℝ) (rng : ℕ → ℝ) (i : ℕ)
    (st : (List Particle × ℕ) × List (ℕ × ℕ)) (bucket : List ℕ) :
    (scanBucketT radius rng i st bucket).1 = scanBucket radius rng i st.1 bucket := by
  induction bucket generalizing st with
  | nil => rfl
  | cons j rest ih =>
    simp only [scanBucketT, scanBucket, List.foldl_cons] at *
    by_cases hji : j ≤ i
    · simp only [if_pos hji]
      exact ih st
    · simp only [if_neg hji]
      exact ih _

lemma scanParticleT_fst (radius half cellSize : ℝ) (rng : ℕ → ℝ)
    (grid : ℤ × ℤ → List ℕ) (st : (List Particle × ℕ) × List (ℕ × ℕ)) (i : ℕ) :
    (scanParticleT radius half cellSize rng grid st i).1
      = scanParticle radius half cellSize rng grid st.1 i := by
  simp only [scanParticleT, scanParticle]
  generalize neighborhood (cellOf half cellSize ((st.1.1.getD i default).position)) = L
  induction L generalizing st with
  | nil => rfl
  | cons c rest ih =>
    simp only [List.foldl_cons]
    rw [ih (scanBucketT radius rng i st (grid c)), scanBucketT_fst]

lemma StepSimulationT_fst (radius areaSize dt : ℝ) (rng : ℕ → ℝ)
    (ps : List Particle) (k : ℕ) :
    (StepSimulationT radius areaSize dt rng ps k).1
      = StepSimulation radius areaSize dt rng ps k := by
  simp only [StepSimulationT, StepSimulation]
  generalize List.range (ps.map (integrateParticle radius (areaSize * 0.5) dt)).length = L
  generalize hst : ((ps.map (integrateParticle radius (areaSize * 0.5) dt), k),
    ([] : List (ℕ × ℕ))) = st
  have : st.1 = (ps.map (integrateParticle radius (areaSize * 0.5) dt), k) := by
    rw [← hst]
  rw [← this]
  clear hst this
  induction L generalizing st with
  | nil => rfl
  | cons i rest ih =>
    simp only [List.foldl_cons]
    rw [ih (scanParticleT _ _ _ rng _ st i), scanParticleT_fst]

lemma scanBucketT_trace (radius : ℝ) (rng : ℕ → ℝ) (i : ℕ)
    (st : (List Particle × ℕ) × List (ℕ × ℕ)) (bucket : List ℕ) :
    (scanBucketT radius rng i st bucket).2
      = st.2 ++ (bucket.filter (fun j => i < j)).map (fun j => (i, j)) := by
  induction bucket generalizing st with
  | nil => simp [scanBucketT]
  | cons j rest ih =>
    simp only [scanBucketT, List.foldl_cons] at *
    by_cases hji : j ≤ i
    · rw [if_pos hji, ih st]
      have : ¬ i < j := Nat.not_lt.mpr hji
      simp [List.filter_cons, this]
    · rw [if_neg hji, ih]
      have : i < j := Nat.not_le.mp hji
      simp [List.filter_cons, this]

lemma scanParticleT_trace (radius half cellSize : ℝ) (rng : ℕ → ℝ)
    (grid : ℤ × ℤ → List ℕ) (st : (List Particle × ℕ) × List (ℕ × ℕ)) (i : ℕ) :
    (scanParticleT radius half cellSize rng grid st i).2
      = st.2 ++ (candidatesOf grid
          (cellOf half cellSize ((st.1.1.getD i default).position)) i).map
            (fun j => (i, j)) := by
  simp only [scanParticleT, candidatesOf]
  generalize neighborhood (cellOf half cellSize ((st.1.1.getD i default).position)) = L
  induction L generalizing st with
  | nil => simp
  | cons c rest ih =>
    simp only [List.foldl_cons, List.flatMap_cons, List.filter_append, List.map_append]
    rw [ih (scanBucketT radius rng i st (grid c)), scanBucketT_trace, List.append_assoc]

lemma neighborhood_nodup (c : ℤ × ℤ) : (neighborhood c).Nodup := by
  simp [neighborhood, List.nodup_cons, Prod.ext_iff]
  omega

lemma gridBuild_nodup (half cellSize : ℝ) (ps : List Particle) (c : ℤ × ℤ) :
    (gridBuild half cellSize ps c).Nodup :=
  (List.nodup_range ps.length).filter _

lemma candidatesOf_nodup (half cellSize : ℝ) (ps : List Particle) (c : ℤ × ℤ) (i : ℕ) :
    (candidatesOf (gridBuild half cellSize ps) c i).Nodup := by
  refine List.Nodup.filter _ ?_
  rw [List.nodup_flatMap]
  refine ⟨fun c1 _ => gridBuild_nodup half cellSize ps c1, ?_⟩
  have hnd := neighborhood_nodup c
  refine hnd.imp ?_
  intro c1 c2 hne x hx1 hx2
  apply hne
  have e1 : cellOf half cellSize ((ps.getD x default).position) = c1 := by
    have h := hx1
    simp only [gridBuild, List.mem_filter, List.mem_range, decide_eq_true_eq] at h
    exact h.2
  have e2 : cellOf half cellSize ((ps.getD x default).position) = c2 := by
    have h := hx2
    simp only [gridBuild, List.mem_filter, List.mem_range, decide_eq_true_eq] at h
    exact h.2
  rw [← e1, e2]

lemma nodup_count_le_one_pair (l : List (ℕ × ℕ)) (h : l.Nodup) (p : ℕ × ℕ) :
    l.count p ≤ 1 := by
  induction l with
  | nil => simp
  | cons a t ih =>
    rw [List.nodup_cons] at h
    rw [List.count_cons]
    by_cases hpa : p = a
    · subst hpa
      have h0 : t.count p = 0 := List.count_eq_zero.mpr h.1
      simp [h0]
    · have hap : ¬ a = p := fun h2 => hpa h2.symm
      simp only [beq_iff_eq, if_neg hap, Nat.add_zero]
      exact ih h.2

/-- Invariant carried over the outer loop of the instrumented narrow
phase: every traced pair is strictly ordered, and no ordered pair is
traced twice. -/
lemma trace_invariant (radius half cellSize : ℝ) (rng : ℕ → ℝ) (psG : List Particle)
    (L : List ℕ) (st : (List Particle × ℕ) × List (ℕ × ℕ))
    (hL : L.Nodup)
    (hfst : ∀ p ∈ st.2, (p : ℕ × ℕ).1 ∉ L)
    (hcnt : ∀ a b : ℕ, st.2.count (a, b) ≤ 1)
    (hord : ∀ p ∈ st.2, (p : ℕ × ℕ).1 < p.2) :
    (∀ a b : ℕ,
        (L.foldl (scanParticleT radius half cellSize rng (gridBuild half cellSize psG))
          st).2.count (a, b) ≤ 1) ∧
    (∀ p ∈ (L.foldl (scanParticleT radius half cellSize rng
        (gridBuild half cellSize psG)) st).2, (p : ℕ × ℕ).1 < p.2) := by
  induction L generalizing st with
  | nil => exact ⟨hcnt, hord⟩
  | cons i rest ih =>
    simp only [List.foldl_cons]
    have hiL : i ∉ rest := (List.nodup_cons.mp hL).1
    have hrest : rest.Nodup := (List.nodup_cons.mp hL).2
    set st1 := scanParticleT radius half cellSize rng (gridBuild half cellSize psG) st i
      with hst1
    have htr : st1.2 = st.2 ++ (candidatesOf (gridBuild half cellSize psG)
        (cellOf half cellSize ((st.1.1.getD i default).position)) i).map
          (fun j => (i, j)) := scanParticleT_trace _ _ _ _ _ _ _
    have hchunk_nodup : ((candidatesOf (gridBuild half cellSize psG)
        (cellOf half cellSize ((st.1.1.getD i default).position)) i).map
          (fun j => (i, j))).Nodup := by
      refine (candidatesOf_nodup _ _ _ _ _).map ?_
      intro a b hab
      simpa using hab
    have hchunk_fst : ∀ p ∈ (candidatesOf (gridBuild half cellSize psG)
        (cellOf half cellSize ((st.1.1.getD i default).position)) i).map
          (fun j => (i, j)), (p : ℕ × ℕ).1 = i ∧ i < p.2 := by
      intro p hp
      obtain ⟨j, hj, rfl⟩ := List.mem_map.mp hp
      refine ⟨rfl, ?_⟩
      have := List.of_mem_filter hj
      simpa using this
    refine ih st1 hrest ?_ ?_ ?_
    · intro p hp
      rw [htr] at hp
      rcases List.mem_append.mp hp with hmem | hmem
      · intro hc
        exact hfst p hmem (List.mem_cons_of_mem _ hc)
      · rw [(hchunk_fst p hmem).1]
        exact hiL
    · intro a b
      rw [htr, List.count_append]
      by_cases hai : a = i
      · subst hai
        have h0 : st.2.count (a, b) = 0 := by
          refine List.count_eq_zero.mpr ?_
          intro hm
          exact hfst (a, b) hm (List.mem_cons_self _ _)
        have h1 := nodup_count_le_one_pair _ hchunk_nodup (a, b)
        omega
      · have h0 : ((candidatesOf (gridBuild half cellSize psG)
            (cellOf half cellSize ((st.1.1.getD i default).position)) i).map
              (fun j => (i, j))).count (a, b) = 0 := by
          refine List.count_eq_zero.mpr ?_
          intro hm
          exact hai (hchunk_fst (a, b) hm).1
        have h1 := hcnt a b
        omega
    · intro p hp
      rw [htr] at hp
      rcases List.mem_append.mp hp with hmem | hmem
      · exact hord p hmem
      · obtain ⟨h1, h2⟩ := hchunk_fst p hmem
        rw [h1]
        exact h2

/-- C3: during one (instrumented) call to `StepSimulation`, each unordered
pair of indices reaches the narrow-phase distance test and resolver at most
once, and no particle is ever paired with itself: candidates with `j <= i`
are skipped, the grid buckets are duplicate-free and pairwise disjoint over
the nine distinct neighborhood cells. -/
theorem pair_processed_at_most_once (radius areaSize dt : ℝ) (rng : ℕ → ℝ)
    (ps : List Particle) (k : ℕ) :
    (∀ a b : ℕ,
        (StepSimulationT radius areaSize dt rng ps k).2.count (a, b)
          + (StepSimulationT radius areaSize dt rng ps k).2.count (b, a) ≤ 1) ∧
    (∀ a : ℕ, (a, a) ∉ (StepSimulationT radius areaSize dt rng ps k).2) := by
  have main := trace_invariant radius (areaSize * 0.5) (2 * radius) rng
    (ps.map (integrateParticle radius (areaSize * 0.5) dt))
    (List.range (ps.map (integrateParticle radius (areaSize * 0.5) dt)).length)
    ((ps.map (integrateParticle radius (areaSize * 0.5) dt), k), [])
    (List.nodup_range _) (by simp) (by simp) (by simp)
  have hunfold : StepSimulationT radius areaSize dt rng ps k
      = (List.range (ps.map (integrateParticle radius (areaSize * 0.5) dt)).length).foldl
        (scanParticleT radius (areaSize * 0.5) (2 * radius) rng
          (gridBuild (areaSize * 0.5) (2 * radius)
            (ps.map (integrateParticle radius (areaSize * 0.5) dt))))
        ((ps.map (integrateParticle radius (areaSize * 0.5) dt), k), []) := rfl
  rw [← hunfold] at main
  obtain ⟨hcnt, hord⟩ := main
  constructor
  · intro a b
    rcases Nat.lt_trichotomy a b with hab | hab | hab
    · have h0 : (StepSimulationT radius areaSize dt rng ps k).2.count (b, a) = 0 := by
        refine List.count_eq_zero.mpr ?_
        intro hm
        have := hord (b, a) hm
        simp at this
        omega
      have h1 := hcnt a b
      omega
    · subst hab
      have h0 : (StepSimulationT radius areaSize dt rng ps k).2.count (a, a) = 0 := by
        refine List.count_eq_zero.mpr ?_
        intro hm
        have := hord (a, a) hm
        simp at this
      omega
    · have h0 : (StepSimulationT radius areaSize dt rng ps k).2.count (a, b) = 0 := by
        refine List.count_eq_zero.mpr ?_
        intro hm
        have := hord (a, b) hm
        simp at this
        omega
      have h1 := hcnt b a
      omega
  · intro a hm
    have := hord (a, a) hm
    simp at this

/-- C3 witness at a concrete configuration (two overlapping particles,
program-like constants). -/
theorem pair_processed_at_most_once_witness :
    (∀ a b : ℕ,
        (StepSimulationT 4 600 (1 / 60) (fun _ => (1 : ℝ) / 2)
            [⟨⟨0, 0⟩, ⟨0, 0⟩⟩, ⟨⟨1, 0⟩, ⟨0, 0⟩⟩] 0).2.count (a, b)
          + (StepSimulationT 4 600 (1 / 60) (fun _ => (1 : ℝ) / 2)
            [⟨⟨0, 0⟩, ⟨0, 0⟩⟩, ⟨⟨1, 0⟩, ⟨0, 0⟩⟩] 0).2.count (b, a) ≤ 1) ∧
    (∀ a : ℕ, (a, a) ∉ (StepSimulationT 4 600 (1 / 60) (fun _ => (1 : ℝ) / 2)
        [⟨⟨0, 0⟩, ⟨0, 0⟩⟩, ⟨⟨1, 0⟩, ⟨0, 0⟩⟩] 0).2) :=
  pair_processed_at_most_once 4 600 (1 / 60) (fun _ => (1 : ℝ) / 2)
    [⟨⟨0, 0⟩, ⟨0, 0⟩⟩, ⟨⟨1, 0⟩, ⟨0, 0⟩⟩] 0

/-! ### C1: containment counterexample

Three stationary particles at `(295.7, 0)`, `(295.9, 0)`, `(296, 0)`
(all inside the domain, radius 4, `areaSize` 600).  The integration phase
leaves them unchanged, but the single-pass narrow phase resolves the
overlapping pairs `(0,1)`, `(0,2)`, `(1,2)` in order, and the third
positional correction pushes particle 1 to `x = 302.85 > 300`. -/

lemma scanBucket_nil (radius : ℝ) (rng : ℕ → ℝ) (i : ℕ) (st : List Particle × ℕ) :
    scanBucket radius rng i st [] = st := rfl

lemma integrateParticle_id_static (radius half dt x y : ℝ)
    (h1 : ¬ (x - radius < -half)) (h2 : ¬ (x + radius > half))
    (h3 : ¬ (y - radius < -half)) (h4 : ¬ (y + radius > half)) :
    integrateParticle radius half dt ⟨⟨x, y⟩, ⟨0, 0⟩⟩ = ⟨⟨x, y⟩, ⟨0, 0⟩⟩ := by
  simp only [integrateParticle, zero_mul, add_zero, if_neg h1, if_neg h2, if_neg h3,
    if_neg h4]

lemma cex1_map :
    ([⟨⟨295.7, 0⟩, ⟨0, 0⟩⟩, ⟨⟨295.9, 0⟩, ⟨0, 0⟩⟩, ⟨⟨296, 0⟩, ⟨0, 0⟩⟩] :
        List Particle).map (integrateParticle 4 300 (1 / 60))
      = [⟨⟨295.7, 0⟩, ⟨0, 0⟩⟩, ⟨⟨295.9, 0⟩, ⟨0, 0⟩⟩, ⟨⟨296, 0⟩, ⟨0, 0⟩⟩] := by
  simp only [List.map_cons, List.map_nil]
  rw [integrateParticle_id_static 4 300 (1 / 60) 295.7 0 (by norm_num) (by norm_num)
      (by norm_num) (by norm_num),
    integrateParticle_id_static 4 300 (1 / 60) 295.9 0 (by norm_num) (by norm_num)
      (by norm_num) (by norm_num),
    integrateParticle_id_static 4 300 (1 / 60) 296 0 (by norm_num) (by norm_num)
      (by norm_num) (by norm_num)]

lemma cex1_cell_a : cellOf 300 8 ⟨295.7, 0⟩ = (74, 37) := by
  simp only [cellOf]
  norm_num

lemma cex1_cell_b : cellOf 300 8 ⟨295.9, 0⟩ = (74, 37) := by
  simp only [cellOf]
  norm_num

lemma cex1_cell_c : cellOf 300 8 ⟨296, 0⟩ = (74, 37) := by
  simp only [cellOf]
  norm_num

lemma cex1_cell_b1 : cellOf 300 8 ⟨299.8, 0⟩ = (74, 37) := by
  simp only [cellOf]
  norm_num

lemma cex1_cell_c2 : cellOf 300 8 ⟨294.85, 0⟩ = (74, 37) := by
  simp only [cellOf]
  norm_num

lemma cex1_grid (c : ℤ × ℤ) :
    gridBuild 300 8 [⟨⟨295.7, 0⟩, ⟨0, 0⟩⟩, ⟨⟨295.9, 0⟩, ⟨0, 0⟩⟩, ⟨⟨296, 0⟩, ⟨0, 0⟩⟩] c
      = if c = (74, 37) then [0, 1, 2] else [] := by
  show (List.range 3).filter _ = _
  have hr3 : List.range 3 = [0, 1, 2] := by decide
  rw [hr3]
  by_cases hc : c = (74, 37)
  · subst hc
    simp [List.filter, List.getD, cex1_cell_a, cex1_cell_b, cex1_cell_c]
  · have hc1 : ¬ ((74, 37) : ℤ × ℤ) = c := fun h => hc h.symm
    simp [List.filter, List.getD, cex1_cell_a, cex1_cell_b, cex1_cell_c, hc, hc1]

lemma cex1_neighborhood :
    neighborhood (74, 37)
      = [(73, 36), (73, 37), (73, 38), (74, 36), (74, 37), (74, 38),
         (75, 36), (75, 37), (75, 38)] := by
  simp only [neighborhood]
  norm_num

lemma cex1_scan (rng : ℕ → ℝ) (st : List Particle × ℕ) (i : ℕ)
    (hc : cellOf 300 8 ((st.1.getD i default).position) = (74, 37)) :
    scanParticle 4 300 8 rng
        (gridBuild 300 8 [⟨⟨295.7, 0⟩, ⟨0, 0⟩⟩, ⟨⟨295.9, 0⟩, ⟨0, 0⟩⟩, ⟨⟨296, 0⟩, ⟨0, 0⟩⟩])
        st i
      = scanBucket 4 rng i st [0, 1, 2] := by
  simp only [scanParticle, hc, cex1_neighborhood, List.foldl_cons, List.foldl_nil,
    cex1_grid]
  norm_num [scanBucket_nil]

lemma cex1_resolve01 :
    ResolveCollision 4 (fun _ => (1 : ℝ) / 2)
        [⟨⟨295.7, 0⟩, ⟨0, 0⟩⟩, ⟨⟨295.9, 0⟩, ⟨0, 0⟩⟩, ⟨⟨296, 0⟩, ⟨0, 0⟩⟩] 0 0 1
      = ([⟨⟨291.8, 0⟩, ⟨0, 0⟩⟩, ⟨⟨299.8, 0⟩, ⟨0, 0⟩⟩, ⟨⟨296, 0⟩, ⟨0, 0⟩⟩], 4) := by
  rw [ResolveCollision_eq 4 (fun _ => (1 : ℝ) / 2)
    [⟨⟨295.7, 0⟩, ⟨0, 0⟩⟩, ⟨⟨295.9, 0⟩, ⟨0, 0⟩⟩, ⟨⟨296, 0⟩, ⟨0, 0⟩⟩] 0 0 1
    ⟨⟨295.7, 0⟩, ⟨0, 0⟩⟩ ⟨⟨295.9, 0⟩, ⟨0, 0⟩⟩ 0.2 0 0.04 0.2
    rfl rfl (by norm_num) (by norm_num) (by norm_num) (by norm_num) (by norm_num)
    (by norm_num) (by norm_num)]
  norm_num [List.set]

lemma cex1_resolve02 :
    ResolveCollision 4 (fun _ => (1 : ℝ) / 2)
        [⟨⟨291.8, 0⟩, ⟨0, 0⟩⟩, ⟨⟨299.8, 0⟩, ⟨0, 0⟩⟩, ⟨⟨296, 0⟩, ⟨0, 0⟩⟩] 4 0 2
      = ([⟨⟨289.9, 0⟩, ⟨0, 0⟩⟩, ⟨⟨299.8, 0⟩, ⟨0, 0⟩⟩, ⟨⟨297.9, 0⟩, ⟨0, 0⟩⟩], 8) := by
  rw [ResolveCollision_eq 4 (fun _ => (1 : ℝ) / 2)
    [⟨⟨291.8, 0⟩, ⟨0, 0⟩⟩, ⟨⟨299.8, 0⟩, ⟨0, 0⟩⟩, ⟨⟨296, 0⟩, ⟨0, 0⟩⟩] 4 0 2
    ⟨⟨291.8, 0⟩, ⟨0, 0⟩⟩ ⟨⟨296, 0⟩, ⟨0, 0⟩⟩ 4.2 0 17.64 4.2
    rfl rfl (by norm_num) (by norm_num) (by norm_num) (by norm_num) (by norm_num)
    (by norm_num) (by norm_num)]
  norm_num [List.set]

lemma cex1_resolve12 :
    ResolveCollision 4 (fun _ => (1 : ℝ) / 2)
        [⟨⟨289.9, 0⟩, ⟨0, 0⟩⟩, ⟨⟨299.8, 0⟩, ⟨0, 0⟩⟩, ⟨⟨297.9, 0⟩, ⟨0, 0⟩⟩] 8 1 2
      = ([⟨⟨289.9, 0⟩, ⟨0, 0⟩⟩, ⟨⟨302.85, 0⟩, ⟨0, 0⟩⟩, ⟨⟨294.85, 0⟩, ⟨0, 0⟩⟩], 12) := by
  rw [ResolveCollision_eq 4 (fun _ => (1 : ℝ) / 2)
    [⟨⟨289.9, 0⟩, ⟨0, 0⟩⟩, ⟨⟨299.8, 0⟩, ⟨0, 0⟩⟩, ⟨⟨297.9, 0⟩, ⟨0, 0⟩⟩] 8 1 2
    ⟨⟨299.8, 0⟩, ⟨0, 0⟩⟩ ⟨⟨297.9, 0⟩, ⟨0, 0⟩⟩ (-1.9) 0 3.61 1.9
    rfl rfl (by norm_num) (by norm_num) (by norm_num) (by norm_num) (by norm_num)
    (by norm_num) (by norm_num)]
  norm_num [List.set]

lemma cex1_sb0 :
    scanBucket 4 (fun _ => (1 : ℝ) / 2) 0
        ([⟨⟨295.7, 0⟩, ⟨0, 0⟩⟩, ⟨⟨295.9, 0⟩, ⟨0, 0⟩⟩, ⟨⟨296, 0⟩, ⟨0, 0⟩⟩], 0) [0, 1, 2]
      = ([⟨⟨289.9, 0⟩, ⟨0, 0⟩⟩, ⟨⟨299.8, 0⟩, ⟨0, 0⟩⟩, ⟨⟨297.9, 0⟩, ⟨0, 0⟩⟩], 8) := by
  simp only [scanBucket, List.foldl_cons, List.foldl_nil]
  rw [if_pos (by norm_num : (0 : ℕ) ≤ 0), if_neg (by norm_num : ¬ (1 : ℕ) ≤ 0),
    if_neg (by norm_num : ¬ (2 : ℕ) ≤ 0)]
  have h1 : stepPair 4 (fun _ => (1 : ℝ) / 2) 0
      ([⟨⟨295.7, 0⟩, ⟨0, 0⟩⟩, ⟨⟨295.9, 0⟩, ⟨0, 0⟩⟩, ⟨⟨296, 0⟩, ⟨0, 0⟩⟩], 0) 1
      = ([⟨⟨291.8, 0⟩, ⟨0, 0⟩⟩, ⟨⟨299.8, 0⟩, ⟨0, 0⟩⟩, ⟨⟨296, 0⟩, ⟨0, 0⟩⟩], 4) := by
    simp only [stepPair]
    rw [if_pos (by norm_num [List.getD])]
    exact cex1_resolve01
  rw [h1]
  simp only [stepPair]
  rw [if_pos (by norm_num [List.getD])]
  exact cex1_resolve02

lemma cex1_sb1 :
    scanBucket 4 (fun _ => (1 : ℝ) / 2) 1
        ([⟨⟨289.9, 0⟩, ⟨0, 0⟩⟩, ⟨⟨299.8, 0⟩, ⟨0, 0⟩⟩, ⟨⟨297.9, 0⟩, ⟨0, 0⟩⟩], 8) [0, 1, 2]
      = ([⟨⟨289.9, 0⟩, ⟨0, 0⟩⟩, ⟨⟨302.85, 0⟩, ⟨0, 0⟩⟩, ⟨⟨294.85, 0⟩, ⟨0, 0⟩⟩], 12) := by
  simp only [scanBucket, List.foldl_cons, List.foldl_nil]
  rw [if_pos (by norm_num : (0 : ℕ) ≤ 1), if_pos (by norm_num : (1 : ℕ) ≤ 1),
    if_neg (by norm_num : ¬ (2 : ℕ) ≤ 1)]
  simp only [stepPair]
  rw [if_pos (by norm_num [List.getD])]
  exact cex1_resolve12

lemma cex1_sb2 :
    scanBucket 4 (fun _ => (1 : ℝ) / 2) 2
        ([⟨⟨289.9, 0⟩, ⟨0, 0⟩⟩, ⟨⟨302.85, 0⟩, ⟨0, 0⟩⟩, ⟨⟨294.85, 0⟩, ⟨0, 0⟩⟩], 12)
        [0, 1, 2]
      = ([⟨⟨289.9, 0⟩, ⟨0, 0⟩⟩, ⟨⟨302.85, 0⟩, ⟨0, 0⟩⟩, ⟨⟨294.85, 0⟩, ⟨0, 0⟩⟩], 12) := by
  simp only [scanBucket, List.foldl_cons, List.foldl_nil]
  rw [if_pos (by norm_num : (0 : ℕ) ≤ 2), if_pos (by norm_num : (1 : ℕ) ≤ 2),
    if_pos (by norm_num : (2 : ℕ) ≤ 2)]

/-- C1 counterexample: starting from three stationary in-bounds particles
at `(295.7, 0)`, `(295.9, 0)`, `(296, 0)` with the program constants
(radius 4, areaSize 600, dt 1/60), after a single `StepSimulation` call
particle 1 sits at `x = 302.85 > areaSize/2 = 300`: the chained positional
corrections of the narrow phase push it through the wall. -/
theorem step_can_exceed_half_area :
    ((StepSimulation 4 600 (1 / 60) (fun _ => (1 : ℝ) / 2)
        [⟨⟨295.7, 0⟩, ⟨0, 0⟩⟩, ⟨⟨295.9, 0⟩, ⟨0, 0⟩⟩, ⟨⟨296, 0⟩, ⟨0, 0⟩⟩]
        0).1.getD 1 default).position.x > 600 / 2 := by
  have hhalf : (600 : ℝ) * 0.5 = 300 := by norm_num
  have hcs : (2 : ℝ) * 4 = 8 := by norm_num
  have hstep : StepSimulation 4 600 (1 / 60) (fun _ => (1 : ℝ) / 2)
      [⟨⟨295.7, 0⟩, ⟨0, 0⟩⟩, ⟨⟨295.9, 0⟩, ⟨0, 0⟩⟩, ⟨⟨296, 0⟩, ⟨0, 0⟩⟩] 0
      = ([⟨⟨289.9, 0⟩, ⟨0, 0⟩⟩, ⟨⟨302.85, 0⟩, ⟨0, 0⟩⟩, ⟨⟨294.85, 0⟩, ⟨0, 0⟩⟩], 12) := by
    simp only [StepSimulation, hhalf, hcs, cex1_map]
    have hr3 : List.range
        ([⟨⟨295.7, 0⟩, ⟨0, 0⟩⟩, ⟨⟨295.9, 0⟩, ⟨0, 0⟩⟩, ⟨⟨296, 0⟩, ⟨0, 0⟩⟩] :
          List Particle).length = [0, 1, 2] := by
      rfl
    rw [hr3]
    simp only [List.foldl_cons, List.foldl_nil]
    rw [cex1_scan (fun _ => (1 : ℝ) / 2)
      ([⟨⟨295.7, 0⟩, ⟨0, 0⟩⟩, ⟨⟨295.9, 0⟩, ⟨0, 0⟩⟩, ⟨⟨296, 0⟩, ⟨0, 0⟩⟩], 0) 0 cex1_cell_a]
    rw [cex1_sb0]
    rw [cex1_scan (fun _ => (1 : ℝ) / 2)
      ([⟨⟨289.9, 0⟩, ⟨0, 0⟩⟩, ⟨⟨299.8, 0⟩, ⟨0, 0⟩⟩, ⟨⟨297.9, 0⟩, ⟨0, 0⟩⟩], 8) 1
      cex1_cell_b1]
    rw [cex1_sb1]
    rw [cex1_scan (fun _ => (1 : ℝ) / 2)
      ([⟨⟨289.9, 0⟩, ⟨0, 0⟩⟩, ⟨⟨302.85, 0⟩, ⟨0, 0⟩⟩, ⟨⟨294.85, 0⟩, ⟨0, 0⟩⟩], 12) 2
      cex1_cell_c2]
    rw [cex1_sb2]
  rw [hstep]
  norm_num [List.getD]

/-! ### C8: the two-particle scenario

Generic reduction: for a two-particle array whose post-integration
positions overlap, one `StepSimulation` is exactly the integration followed
by a single `ResolveCollision` on the pair `(0, 1)` — the scan of particle 0
hits particle 1 exactly once (its cell appears exactly once among the nine
neighborhood cells), and the scan of particle 1 skips everything. -/

lemma integrateParticle_no_wall (radius half dt : ℝ) (pt : Particle)
    (h1 : ¬ (pt.position.x + pt.velocity.x * dt - radius < -half))
    (h2 : ¬ (pt.position.x + pt.velocity.x * dt + radius > half))
    (h3 : ¬ (pt.position.y + pt.velocity.y * dt - radius < -half))
    (h4 : ¬ (pt.position.y + pt.velocity.y * dt + radius > half)) :
    integrateParticle radius half dt pt
      = ⟨⟨pt.position.x + pt.velocity.x * dt, pt.position.y + pt.velocity.y * dt⟩,
         pt.velocity⟩ := by
  simp only [integrateParticle, if_neg h1, if_neg h2, if_neg h3, if_neg h4]

lemma foldl_eq_id {α β : Type} (f : α → β → α) (L : List β) :
    (∀ st c, c ∈ L → f st c = st) → ∀ st, L.foldl f st = st := by
  induction L with
  | nil => intro _ st; rfl
  | cons c rest ih =>
    intro hf st
    rw [List.foldl_cons, hf st c (List.mem_cons_self _ _)]
    exact ih (fun st2 c2 hc2 => hf st2 c2 (List.mem_cons_of_mem _ hc2)) st

lemma foldl_eq_of_single {α β : Type} [BEq β] [LawfulBEq β] (f : α → β → α) (h : α → α)
    (t : β) (L : List β) :
    L.count t = 1 →
    (∀ st c, c ∈ L → (c = t → f st c = h st) ∧ (c ≠ t → f st c = st)) →
    ∀ st, L.foldl f st = h st := by
  induction L with
  | nil => intro hc; simp at hc
  | cons c rest ih =>
    intro hc hf st
    by_cases hct : c = t
    · subst hct
      have h0 : rest.count c = 0 := by
        rw [List.count_cons_self] at hc
        omega
      rw [List.foldl_cons, (hf st c (List.mem_cons_self _ _)).1 rfl]
      refine foldl_eq_id f rest ?_ (h st)
      intro st2 c2 hc2
      have hne : c2 ≠ c := by
        intro he
        subst he
        rw [List.count_eq_zero] at h0
        exact h0 hc2
      exact (hf st2 c2 (List.mem_cons_of_mem _ hc2)).2 hne
    · rw [List.foldl_cons, (hf st c (List.mem_cons_self _ _)).2 hct]
      refine ih ?_ ?_ st
      · rwa [List.count_cons_of_ne (fun he => hct he.symm)] at hc
      · intro st2 c2 hc2
        exact hf st2 c2 (List.mem_cons_of_mem _ hc2)

lemma nodup_mem_count_eq_one {L : List (ℤ × ℤ)} (hnd : L.Nodup) {c : ℤ × ℤ}
    (hc : c ∈ L) : L.count c = 1 := by
  induction L with
  | nil => simp at hc
  | cons a rest ih =>
    rw [List.nodup_cons] at hnd
    rcases List.mem_cons.mp hc with rfl | hmem
    · rw [List.count_cons_self, List.count_eq_zero.mpr hnd.1]
    · have hne : c ≠ a := by
        intro he
        subst he
        exact hnd.1 hmem
      rw [List.count_cons_of_ne hne]
      exact ih hnd.2 hmem

lemma scanBucket_skip (radius : ℝ) (rng : ℕ → ℝ) (i : ℕ) (bucket : List ℕ)
    (hb : ∀ j ∈ bucket, j ≤ i) : ∀ st, scanBucket radius rng i st bucket = st := by
  intro st
  refine foldl_eq_id _ bucket ?_ st
  intro st2 j hj
  rw [if_pos (hb j hj)]

lemma gridBuild_pair (half cellSize : ℝ) (q0 q1 : Particle) (c : ℤ × ℤ) :
    gridBuild half cellSize [q0, q1] c
      = (if cellOf half cellSize q0.position = c then [0] else [])
        ++ (if cellOf half cellSize q1.position = c then [1] else []) := by
  show (List.range 2).filter _ = _
  have hr2 : List.range 2 = [0, 1] := by decide
  rw [hr2]
  by_cases h0 : cellOf half cellSize q0.position = c <;>
    by_cases h1 : cellOf half cellSize q1.position = c <;>
    simp [List.filter, List.getD, h0, h1]

lemma two_particle_step (radius areaSize dt : ℝ) (rng : ℕ → ℝ) (a b q0 q1 : Particle)
    (k : ℕ)
    (hq0 : integrateParticle radius (areaSize * 0.5) dt a = q0)
    (hq1 : integrateParticle radius (areaSize * 0.5) dt b = q1)
    (hr : 0 < radius)
    (hd : (q1.position.x - q0.position.x) * (q1.position.x - q0.position.x)
        + (q1.position.y - q0.position.y) * (q1.position.y - q0.position.y)
        < (2 * radius) * (2 * radius)) :
    StepSimulation radius areaSize dt rng [a, b] k
      = ResolveCollision radius rng [q0, q1] k 0 1 := by
  have hcells := overlap_pair_in_candidates_aux radius (areaSize * 0.5) [q0, q1] 0 1
    hr (by norm_num) (by norm_num)
    (by
      show (q1.position.x - q0.position.x) ^ 2 + (q1.position.y - q0.position.y) ^ 2
        < (2 * radius) ^ 2
      nlinarith [hd])
  have hmem : cellOf (areaSize * 0.5) (2 * radius) q1.position
      ∈ neighborhood (cellOf (areaSize * 0.5) (2 * radius) q0.position) :=
    mem_neighborhood_of_abs_le _ _ hcells.1 hcells.2.1
  have hcount : (neighborhood (cellOf (areaSize * 0.5) (2 * radius) q0.position)).count
      (cellOf (areaSize * 0.5) (2 * radius) q1.position) = 1 :=
    nodup_mem_count_eq_one (neighborhood_nodup _) hmem
  have hscan1 : ∀ st : List Particle × ℕ,
      scanParticle radius (areaSize * 0.5) (2 * radius) rng
        (gridBuild (areaSize * 0.5) (2 * radius) [q0, q1]) st 1 = st := by
    intro st
    simp only [scanParticle]
    refine foldl_eq_id _ _ ?_ st
    intro st2 c hc
    rw [gridBuild_pair]
    refine scanBucket_skip radius rng 1 _ ?_ st2
    intro j hj
    rcases List.mem_append.mp hj with hm | hm <;> split_ifs at hm <;> simp at hm <;> omega
  have hscan0 : scanParticle radius (areaSize * 0.5) (2 * radius) rng
      (gridBuild (areaSize * 0.5) (2 * radius) [q0, q1]) ([q0, q1], k) 0
      = ResolveCollision radius rng [q0, q1] k 0 1 := by
    simp only [scanParticle]
    have hred : (neighborhood (cellOf (areaSize * 0.5) (2 * radius)
        ((([q0, q1], k) : List Particle × ℕ).1.getD 0 default).position)).foldl
          (fun st c1 => scanBucket radius rng 0 st
            (gridBuild (areaSize * 0.5) (2 * radius) [q0, q1] c1)) ([q0, q1], k)
        = stepPair radius rng 0 ([q0, q1], k) 1 := by
      refine foldl_eq_of_single _ (fun st => stepPair radius rng 0 st 1)
        (cellOf (areaSize * 0.5) (2 * radius) q1.position) _ hcount ?_ ([q0, q1], k)
      intro st c hc
      constructor
      · intro hct
        subst hct
        rw [gridBuild_pair, if_pos rfl]
        by_cases h0 : cellOf (areaSize * 0.5) (2 * radius) q0.position
            = cellOf (areaSize * 0.5) (2 * radius) q1.position
        · rw [if_pos h0]
          show scanBucket radius rng 0 st [0, 1] = stepPair radius rng 0 st 1
          simp only [scanBucket, List.foldl_cons, List.foldl_nil]
          rw [if_pos (by norm_num : (0 : ℕ) ≤ 0), if_neg (by norm_num : ¬ (1 : ℕ) ≤ 0)]
        · rw [if_neg h0]
          show scanBucket radius rng 0 st [1] = stepPair radius rng 0 st 1
          simp only [scanBucket, List.foldl_cons, List.foldl_nil]
          rw [if_neg (by norm_num : ¬ (1 : ℕ) ≤ 0)]
      · intro hct
        have hne1 : ¬ (cellOf (areaSize * 0.5) (2 * radius) q1.position = c) :=
          fun he => hct he.symm
        rw [gridBuild_pair, if_neg hne1]
        by_cases h0 : cellOf (areaSize * 0.5) (2 * radius) q0.position = c
        · rw [if_pos h0]
          refine scanBucket_skip radius rng 0 _ ?_ st
          intro j hj
          simp at hj
          omega
        · rw [if_neg h0]
          rfl
    rw [hred]
    show stepPair radius rng 0 ([q0, q1], k) 1 = ResolveCollision radius rng [q0, q1] k 0 1
    simp only [stepPair]
    rw [if_pos (by simpa [List.getD] using hd)]
  simp only [StepSimulation, List.map_cons, List.map_nil, hq0, hq1]
  have hlen : List.range ([q0, q1] : List Particle).length = [0, 1] := rfl
  rw [hlen]
  simp only [List.foldl_cons, List.foldl_nil]
  rw [hscan0, hscan1]

/-- C8 counterexample: with radius 1, the scenario particles `(-0.4, 0)`,
`(0.4, 0)` at velocities `(5, 0)`, `(-5, 0)` and `dt = 2/25` (which brings
them within `2*radius`: they integrate to exactly coincident positions),
one step leaves them separated by `2 - 1e-3 < 2*radius`: the claimed
"at least `2*radius`" bound fails for this qualifying `dt`. -/
theorem scenario_coincident_dt_fails :
    |(0.8 : ℝ) - 10 * (2 / 25)| < 2 ∧
    (((StepSimulation 1 600 (2 / 25) (fun _ => (1 : ℝ) / 2)
          [⟨⟨-0.4, 0⟩, ⟨5, 0⟩⟩, ⟨⟨0.4, 0⟩, ⟨-5, 0⟩⟩] 0).1.getD 1 default).position.x
        - ((StepSimulation 1 600 (2 / 25) (fun _ => (1 : ℝ) / 2)
          [⟨⟨-0.4, 0⟩, ⟨5, 0⟩⟩, ⟨⟨0.4, 0⟩, ⟨-5, 0⟩⟩] 0).1.getD 0 default).position.x) ^ 2
      + (((StepSimulation 1 600 (2 / 25) (fun _ => (1 : ℝ) / 2)
          [⟨⟨-0.4, 0⟩, ⟨5, 0⟩⟩, ⟨⟨0.4, 0⟩, ⟨-5, 0⟩⟩] 0).1.getD 1 default).position.y
        - ((StepSimulation 1 600 (2 / 25) (fun _ => (1 : ℝ) / 2)
          [⟨⟨-0.4, 0⟩, ⟨5, 0⟩⟩, ⟨⟨0.4, 0⟩, ⟨-5, 0⟩⟩] 0).1.getD 0 default).position.y) ^ 2
      < (2 * 1) ^ 2 := by
  have hq0 : integrateParticle 1 (600 * 0.5) (2 / 25) ⟨⟨-0.4, 0⟩, ⟨5, 0⟩⟩
      = ⟨⟨0, 0⟩, ⟨5, 0⟩⟩ := by
    rw [integrateParticle_no_wall 1 (600 * 0.5) (2 / 25) _ (by norm_num) (by norm_num)
      (by norm_num) (by norm_num)]
    norm_num
  have hq1 : integrateParticle 1 (600 * 0.5) (2 / 25) ⟨⟨0.4, 0⟩, ⟨-5, 0⟩⟩
      = ⟨⟨0, 0⟩, ⟨-5, 0⟩⟩ := by
    rw [integrateParticle_no_wall 1 (600 * 0.5) (2 / 25) _ (by norm_num) (by norm_num)
      (by norm_num) (by norm_num)]
    norm_num
  have hTS : StepSimulation 1 600 (2 / 25) (fun _ => (1 : ℝ) / 2)
      [⟨⟨-0.4, 0⟩, ⟨5, 0⟩⟩, ⟨⟨0.4, 0⟩, ⟨-5, 0⟩⟩] 0
      = ResolveCollision 1 (fun _ => (1 : ℝ) / 2)
        [⟨⟨0, 0⟩, ⟨5, 0⟩⟩, ⟨⟨0, 0⟩, ⟨-5, 0⟩⟩] 0 0 1 :=
    two_particle_step 1 600 (2 / 25) (fun _ => (1 : ℝ) / 2) _ _ _ _ 0 hq0 hq1
      (by norm_num) (by norm_num)
  have hRC : ResolveCollision 1 (fun _ => (1 : ℝ) / 2)
      [⟨⟨0, 0⟩, ⟨5, 0⟩⟩, ⟨⟨0, 0⟩, ⟨-5, 0⟩⟩] 0 0 1
      = ([⟨⟨-0.9995, 0⟩, ⟨-5, 0⟩⟩, ⟨⟨0.9995, 0⟩, ⟨5, 0⟩⟩], 4) := by
    rw [ResolveCollision_coincident_eq 1 (fun _ => (1 : ℝ) / 2)
      [⟨⟨0, 0⟩, ⟨5, 0⟩⟩, ⟨⟨0, 0⟩, ⟨-5, 0⟩⟩] 0 0 1
      ⟨⟨0, 0⟩, ⟨5, 0⟩⟩ ⟨⟨0, 0⟩, ⟨-5, 0⟩⟩ rfl rfl rfl rfl (by norm_num)]
    norm_num [List.set]
  rw [hTS, hRC]
  norm_num [List.getD]

/-- C8 (amended): for any `dt` for which the integrated positions are
within `2*radius` of each other but not exactly coincident
(`0 < |0.8 - 10*dt| < 2`), one step swaps the velocities to `(-5, 0)` and
`(5, 0)` and leaves the positions separated by at least (exactly)
`2*radius`.  The original claim fails only at the coincident `dt`. -/
theorem scenario_swap_after_step (dt : ℝ)
    (h1 : |(0.8 : ℝ) - 10 * dt| < 2) (h2 : (0.8 : ℝ) - 10 * dt ≠ 0) :
    ((StepSimulation 1 600 dt (fun _ => (1 : ℝ) / 2)
        [⟨⟨-0.4, 0⟩, ⟨5, 0⟩⟩, ⟨⟨0.4, 0⟩, ⟨-5, 0⟩⟩] 0).1.getD 0 default).velocity
      = (⟨-5, 0⟩ : Vector2) ∧
    ((StepSimulation 1 600 dt (fun _ => (1 : ℝ) / 2)
        [⟨⟨-0.4, 0⟩, ⟨5, 0⟩⟩, ⟨⟨0.4, 0⟩, ⟨-5, 0⟩⟩] 0).1.getD 1 default).velocity
      = (⟨5, 0⟩ : Vector2) ∧
    (((StepSimulation 1 600 dt (fun _ => (1 : ℝ) / 2)
        [⟨⟨-0.4, 0⟩, ⟨5, 0⟩⟩, ⟨⟨0.4, 0⟩, ⟨-5, 0⟩⟩] 0).1.getD 1 default).position.x
      - ((StepSimulation 1 600 dt (fun _ => (1 : ℝ) / 2)
        [⟨⟨-0.4, 0⟩, ⟨5, 0⟩⟩, ⟨⟨0.4, 0⟩, ⟨-5, 0⟩⟩] 0).1.getD 0 default).position.x) ^ 2
      + (((StepSimulation 1 600 dt (fun _ => (1 : ℝ) / 2)
        [⟨⟨-0.4, 0⟩, ⟨5, 0⟩⟩, ⟨⟨0.4, 0⟩, ⟨-5, 0⟩⟩] 0).1.getD 1 default).position.y
      - ((StepSimulation 1 600 dt (fun _ => (1 : ℝ) / 2)
        [⟨⟨-0.4, 0⟩, ⟨5, 0⟩⟩, ⟨⟨0.4, 0⟩, ⟨-5, 0⟩⟩] 0).1.getD 0 default).position.y) ^ 2
      ≥ (2 * 1) ^ 2 := by
  obtain ⟨hl, hu⟩ := abs_lt.mp h1
  have hq0 : integrateParticle 1 (600 * 0.5) dt ⟨⟨-0.4, 0⟩, ⟨5, 0⟩⟩
      = ⟨⟨-0.4 + 5 * dt, 0⟩, ⟨5, 0⟩⟩ := by
    rw [integrateParticle_no_wall 1 (600 * 0.5) dt _
      (by push_neg; norm_num; linarith) (by push_neg; norm_num; linarith)
      (by push_neg; norm_num) (by push_neg; norm_num)]
    norm_num
  have hq1 : integrateParticle 1 (600 * 0.5) dt ⟨⟨0.4, 0⟩, ⟨-5, 0⟩⟩
      = ⟨⟨0.4 - 5 * dt, 0⟩, ⟨-5, 0⟩⟩ := by
    rw [integrateParticle_no_wall 1 (600 * 0.5) dt _
      (by push_neg; norm_num; linarith) (by push_neg; norm_num; linarith)
      (by push_neg; norm_num) (by push_neg; norm_num)]
    norm_num
    ring
  have hd : ((⟨⟨0.4 - 5 * dt, 0⟩, ⟨-5, 0⟩⟩ : Particle).position.x
        - (⟨⟨-0.4 + 5 * dt, 0⟩, ⟨5, 0⟩⟩ : Particle).position.x)
      * ((⟨⟨0.4 - 5 * dt, 0⟩, ⟨-5, 0⟩⟩ : Particle).position.x
        - (⟨⟨-0.4 + 5 * dt, 0⟩, ⟨5, 0⟩⟩ : Particle).position.x)
      + ((⟨⟨0.4 - 5 * dt, 0⟩, ⟨-5, 0⟩⟩ : Particle).position.y
        - (⟨⟨-0.4 + 5 * dt, 0⟩, ⟨5, 0⟩⟩ : Particle).position.y)
      * ((⟨⟨0.4 - 5 * dt, 0⟩, ⟨-5, 0⟩⟩ : Particle).position.y
        - (⟨⟨-0.4 + 5 * dt, 0⟩, ⟨5, 0⟩⟩ : Particle).position.y)
      < (2 * 1) * (2 * 1) := by
    show (0.4 - 5 * dt - (-0.4 + 5 * dt)) * (0.4 - 5 * dt - (-0.4 + 5 * dt))
        + ((0 : ℝ) - 0) * (0 - 0) < (2 * 1) * (2 * 1)
    nlinarith [hl, hu]
  have hTS : StepSimulation 1 600 dt (fun _ => (1 : ℝ) / 2)
      [⟨⟨-0.4, 0⟩, ⟨5, 0⟩⟩, ⟨⟨0.4, 0⟩, ⟨-5, 0⟩⟩] 0
      = ResolveCollision 1 (fun _ => (1 : ℝ) / 2)
        [⟨⟨-0.4 + 5 * dt, 0⟩, ⟨5, 0⟩⟩, ⟨⟨0.4 - 5 * dt, 0⟩, ⟨-5, 0⟩⟩] 0 0 1 :=
    two_particle_step 1 600 dt (fun _ => (1 : ℝ) / 2) _ _ _ _ 0 hq0 hq1
      (by norm_num) hd
  rw [hTS]
  rcases h2.lt_or_lt with hneg | hpos
  · have hRC : ResolveCollision 1 (fun _ => (1 : ℝ) / 2)
        [⟨⟨-0.4 + 5 * dt, 0⟩, ⟨5, 0⟩⟩, ⟨⟨0.4 - 5 * dt, 0⟩, ⟨-5, 0⟩⟩] 0 0 1
        = ([⟨⟨1, 0⟩, ⟨-5, 0⟩⟩, ⟨⟨-1, 0⟩, ⟨5, 0⟩⟩], 4) := by
      rw [ResolveCollision_eq 1 (fun _ => (1 : ℝ) / 2)
        [⟨⟨-0.4 + 5 * dt, 0⟩, ⟨5, 0⟩⟩, ⟨⟨0.4 - 5 * dt, 0⟩, ⟨-5, 0⟩⟩] 0 0 1
        ⟨⟨-0.4 + 5 * dt, 0⟩, ⟨5, 0⟩⟩ ⟨⟨0.4 - 5 * dt, 0⟩, ⟨-5, 0⟩⟩
        (0.8 - 10 * dt) 0 ((0.8 - 10 * dt) * (0.8 - 10 * dt)) (-(0.8 - 10 * dt))
        rfl rfl (by show (0.8 : ℝ) - 10 * dt = 0.4 - 5 * dt - (-0.4 + 5 * dt); ring)
        (by norm_num) (by ring) (mul_ne_zero h2 h2) (by nlinarith [hl, hu])
        (by linarith) (by ring)]
      have hne10 : (10 * dt - 4 / 5 : ℝ) ≠ 0 := by
        intro h
        apply h2
        linarith
      have hdiv : ((4 / 5 : ℝ) - 10 * dt) / (10 * dt - 4 / 5) = -1 := by
        rw [show ((4 / 5 : ℝ) - 10 * dt) = -(10 * dt - 4 / 5) by ring, neg_div,
          div_self hne10]
      norm_num [List.set]
      refine ⟨?_, ?_⟩ <;> rw [hdiv] <;> linarith
    rw [hRC]
    norm_num [List.getD]
  · have hRC : ResolveCollision 1 (fun _ => (1 : ℝ) / 2)
        [⟨⟨-0.4 + 5 * dt, 0⟩, ⟨5, 0⟩⟩, ⟨⟨0.4 - 5 * dt, 0⟩, ⟨-5, 0⟩⟩] 0 0 1
        = ([⟨⟨-1, 0⟩, ⟨-5, 0⟩⟩, ⟨⟨1, 0⟩, ⟨5, 0⟩⟩], 4) := by
      rw [ResolveCollision_eq 1 (fun _ => (1 : ℝ) / 2)
        [⟨⟨-0.4 + 5 * dt, 0⟩, ⟨5, 0⟩⟩, ⟨⟨0.4 - 5 * dt, 0⟩, ⟨-5, 0⟩⟩] 0 0 1
        ⟨⟨-0.4 + 5 * dt, 0⟩, ⟨5, 0⟩⟩ ⟨⟨0.4 - 5 * dt, 0⟩, ⟨-5, 0⟩⟩
        (0.8 - 10 * dt) 0 ((0.8 - 10 * dt) * (0.8 - 10 * dt)) (0.8 - 10 * dt)
        rfl rfl (by show (0.8 : ℝ) - 10 * dt = 0.4 - 5 * dt - (-0.4 + 5 * dt); ring)
        (by norm_num) (by ring) (mul_ne_zero h2 h2) (by nlinarith [hl, hu])
        hpos rfl]
      have hne10 : (4 / 5 - 10 * dt : ℝ) ≠ 0 := by
        intro h
        apply h2
        linarith
      have hdiv : ((4 / 5 : ℝ) - 10 * dt) / (4 / 5 - 10 * dt) = 1 := div_self hne10
      norm_num [List.set]
      refine ⟨?_, ?_⟩ <;> rw [hdiv] <;> linarith
    rw [hRC]
    norm_num [List.getD]

/-- C8 (amended) witness at `dt = 1/10`. -/
theorem scenario_swap_after_step_witness :
    (|(0.8 : ℝ) - 10 * (1 / 10)| < 2 ∧ (0.8 : ℝ) - 10 * (1 / 10) ≠ 0) ∧
    ((StepSimulation 1 600 (1 / 10) (fun _ => (1 : ℝ) / 2)
        [⟨⟨-0.4, 0⟩, ⟨5, 0⟩⟩, ⟨⟨0.4, 0⟩, ⟨-5, 0⟩⟩] 0).1.getD 0 default).velocity
      = (⟨-5, 0⟩ : Vector2) ∧
    ((StepSimulation 1 600 (1 / 10) (fun _ => (1 : ℝ) / 2)
        [⟨⟨-0.4, 0⟩, ⟨5, 0⟩⟩, ⟨⟨0.4, 0⟩, ⟨-5, 0⟩⟩] 0).1.getD 1 default).velocity
      = (⟨5, 0⟩ : Vector2) := by
  have h := scenario_swap_after_step (1 / 10) (by rw [abs_lt]; norm_num) (by norm_num)
  exact ⟨⟨by rw [abs_lt]; norm_num, by norm_num⟩, h.1, h.2.1⟩

end ParticleSim
